import Mathlib

/-!
Shallow embedding of the sesgocero-engine processing core:
`src/data_cleaner.py` (tag-and-duplicate strategy) and
`src/cluster_articles.py` (classify-and-bucket strategy), together with the
retry-session construction of `src/process_data.py` and the concurrency
limiter used by `clean_data`.

Mongo documents are modelled as explicit records; the stores
(`MONGODB_COL`, `clean_articles`, `clusters`) are lists.  The external
DeepSeek oracle is an injected function; network / parse / shape failures
are collapsed exactly as the source collapses them (every handler of
`clean_article` returns the original article; every handler of
`determine_cluster` returns the string "error").  Fallible store operations
are injected as behaviour functions so that the partial-failure paths of
the source (insert failure, update exception, matched-but-not-modified
updates) are all representable.
-/

namespace SesgoCero

/-- A document of the original articles collection or of `clean_articles`.
`oid` is the `_id` field (`none` when the document lacks one), `cleaned` is
the `cleaned` flag (absent = `false`), `clusterId` is the `cluster_id`
reference (`none` = absent), and `body` stands for all remaining domain
fields, which the engine treats as opaque. -/
structure Article where
  oid : Option String
  cleaned : Bool
  clusterId : Option Nat
  body : String
deriving DecidableEq, Repr

/-- A document of the `clusters` collection: `_id`, `name`, and the member
list `articles` of article identifiers.  (The source also stores
`created_at` / `updated_at` timestamps; no claim concerns them.) -/
structure Cluster where
  clid : Nat
  name : String
  articles : List String
deriving DecidableEq, Repr

/-- The persistent state: the original collection (`MONGODB_COL`), the
`clean_articles` collection, the `clusters` collection, and the id counter
standing for Mongo's generation of fresh `_id`s on `insert_one`. -/
structure Store where
  original : List Article
  cleanCol : List Article
  clusters : List Cluster
  nextClusterId : Nat
deriving DecidableEq, Repr

/-- Store-write events, used to observe exactly which mutations a run
performs: an insert into `clean_articles`, a modifying `cleaned := true`
update on the original collection, a `$push` onto a cluster's member
list, a `cluster_id` update on a `clean_articles` document, and an
insert into `clusters`. -/
inductive WEvent where
  | insertClean (doc : Article)
  | markCleaned (aid : String)
  | pushMember (clid : Nat) (aid : String)
  | setClusterId (aid : String) (clid : Nat)
  | insertCluster (c : Cluster)
deriving DecidableEq, Repr

/-! ### data_cleaner.py -/

/-- `clean_article` (src/data_cleaner.py lines 118-190): issues one oracle
call for the article.  On a successful, well-shaped response it returns the
parsed cleaned article; on `aiohttp.ClientError`, `json.JSONDecodeError`,
`ResponseError` (missing `choices`) or any other exception it returns the
original article unchanged.  The oracle is injected: `some c` is a
successful call whose parsed content is `c`; `none` is any of the failure
cases. -/
def clean_article (oracle : Article → Option Article) (a : Article) : Article :=
  match oracle a with
  | some c => c
  | none => a

/-- `update_one({"_id": aid}, {"$set": {"cleaned": True}})` on the original
collection: sets the flag on the first document whose `_id` matches. -/
def setCleanedFirst : List Article → String → List Article
  | [], _ => []
  | a :: rest, aid =>
      if a.oid = some aid then
        ⟨a.oid, true, a.clusterId, a.body⟩ :: rest
      else
        a :: setCleanedFirst rest aid

/-- First document of a collection whose `_id` matches, as Mongo's
matching of an `update_one` / `find_one` filter does. -/
def findOriginal : List Article → String → Option Article
  | [], _ => none
  | a :: rest, aid => if a.oid = some aid then some a else findOriginal rest aid

/-- Per-record effects of the cleaning stage: the counters
`articles_saved_count`, `articles_updated_count`, `articles_failed_count`,
`skipped_count` of `clean_data`, the articles for which an oracle call was
issued, and the store writes performed. -/
structure CleanEff where
  saved : Nat
  updated : Nat
  failed : Nat
  skipped : Nat
  calls : List Article
  trace : List WEvent
deriving DecidableEq, Repr

/-- Pointwise accumulation of effects over a run. -/
def cleanEffAdd (e1 e2 : CleanEff) : CleanEff :=
  ⟨e1.saved + e2.saved, e1.updated + e2.updated, e1.failed + e2.failed,
   e1.skipped + e2.skipped, e1.calls ++ e2.calls, e1.trace ++ e2.trace⟩

/-- Processing of one input record by `clean_data`
(src/data_cleaner.py lines 250-341).  In order:
already-`cleaned` records are skipped before any task is created; records
without `_id` are counted failed without an oracle call; otherwise
`clean_article` is awaited (one oracle call), the result is inserted into
`clean_articles` (`insertOk` injects insert failure, which is counted
failed with no further write), and only after a successful insert is the
original document's `cleaned` flag updated (`updateOk` injects an
exception in that update, which the source merely logs); the update is a
modifying write only when a document matches and its flag was unset. -/
def cleanStep (oracle : Article → Option Article) (insertOk : Article → Bool)
    (updateOk : String → Bool) (st : Store) (a : Article) : Store × CleanEff :=
  if a.cleaned then
    (st, ⟨0, 0, 0, 1, [], []⟩)
  else
    match a.oid with
    | none => (st, ⟨0, 0, 1, 0, [], []⟩)
    | some aid =>
        let c := clean_article oracle a
        if insertOk c then
          let st1 : Store := ⟨st.original, st.cleanCol ++ [c], st.clusters, st.nextClusterId⟩
          if updateOk aid then
            match findOriginal st1.original aid with
            | some orig =>
                if orig.cleaned then
                  (st1, ⟨1, 0, 0, 0, [a], [WEvent.insertClean c]⟩)
                else
                  (⟨setCleanedFirst st1.original aid, st1.cleanCol, st1.clusters,
                      st1.nextClusterId⟩,
                   ⟨1, 1, 0, 0, [a], [WEvent.insertClean c, WEvent.markCleaned aid]⟩)
            | none => (st1, ⟨1, 0, 0, 0, [a], [WEvent.insertClean c]⟩)
          else
            (st1, ⟨1, 0, 0, 0, [a], [WEvent.insertClean c]⟩)
        else
          (st, ⟨0, 0, 1, 0, [a], []⟩)

/-- `clean_data` (src/data_cleaner.py lines 193-346): the whole cleaning
run over the input list, threading the store and accumulating the
counters, oracle calls and writes.  The source first builds the task list
(skipping flagged and id-less records) and then awaits the tasks in
creation order, so its store effects occur in input order, as here. -/
def clean_data (oracle : Article → Option Article) (insertOk : Article → Bool)
    (updateOk : String → Bool) : List Article → Store → Store × CleanEff
  | [], st => (st, ⟨0, 0, 0, 0, [], []⟩)
  | a :: rest, st =>
      let p1 := cleanStep oracle insertOk updateOk st a
      let p2 := clean_data oracle insertOk updateOk rest p1.1
      (p2.1, cleanEffAdd p1.2 p2.2)

/-! ### cluster_articles.py -/

/-- `determine_cluster` (src/cluster_articles.py lines 124-192): one oracle
call per article; on success returns the first choice's content (the
cluster label); on `requests.RequestException`, `json.JSONDecodeError`,
`ResponseError` (missing `choices`) or any other exception returns the
literal string "error".  The oracle is injected with the article and the
current `cluster_names` list (both are part of the request payload);
`none` is any failure case. -/
def determine_cluster (oracle : Article → List String → Option String)
    (a : Article) (names : List String) : String :=
  match oracle a names with
  | some s => s
  | none => "error"

/-- `clusters_collection.find_one({"name": label})`: first cluster with the
given name. -/
def findCluster : List Cluster → String → Option Cluster
  | [], _ => none
  | c :: rest, label => if c.name = label then some c else findCluster rest label

/-- `update_one({"_id": clid}, {"$push": {"articles": aid}})`: appends the
article id to the member list of the first cluster whose `_id` matches. -/
def pushMemberList : List Cluster → Nat → String → List Cluster
  | [], _, _ => []
  | c :: rest, clid, aid =>
      if c.clid = clid then
        ⟨c.clid, c.name, c.articles ++ [aid]⟩ :: rest
      else
        c :: pushMemberList rest clid aid

/-- `clean_collection.update_one({"_id": aid}, {"$set": {"cluster_id": clid}})`:
sets the reference on the first matching document. -/
def setClusterIdFirst : List Article → String → Nat → List Article
  | [], _, _ => []
  | a :: rest, aid, clid =>
      if a.oid = some aid then
        ⟨a.oid, a.cleaned, some clid, a.body⟩ :: rest
      else
        a :: setClusterIdFirst rest aid clid

/-- Injected store behaviour for one article's write sequence in
`cluster_articles`.  On the existing-cluster path: `pushThrow` makes the
`$push` raise, `modZero` makes it match without modifying, `setThrow`
makes the subsequent `cluster_id` update raise, `ok` (and `insThrow`) is
the normal path.  On the new-cluster path: `insThrow` makes the cluster
insert raise, `setThrow` makes the `cluster_id` update raise after the
insert, the rest is the normal path. -/
inductive StoreB where
  | ok
  | pushThrow
  | modZero
  | setThrow
  | insThrow
deriving DecidableEq, Repr

/-- Run counters of `cluster_articles` (`articles_processed`,
`articles_added_to_existing`, `new_clusters_created`, `articles_failed`,
`articles_skipped`), plus the articles for which an oracle call was issued
and the store writes performed. -/
structure ClusterEff where
  processed : Nat
  added : Nat
  newClusters : Nat
  failed : Nat
  skipped : Nat
  calls : List Article
  trace : List WEvent
deriving DecidableEq, Repr

/-- Pointwise accumulation of cluster-run effects. -/
def clusterEffAdd (e1 e2 : ClusterEff) : ClusterEff :=
  ⟨e1.processed + e2.processed, e1.added + e2.added,
   e1.newClusters + e2.newClusters, e1.failed + e2.failed,
   e1.skipped + e2.skipped, e1.calls ++ e2.calls, e1.trace ++ e2.trace⟩

/-- Processing of one article by the loop of `cluster_articles`
(src/cluster_articles.py lines 254-340).  Articles whose snapshot carries a
`cluster_id` are skipped (`processed` and `skipped` both increment).
Otherwise `determine_cluster` is called; the result "error" increments
`failed` and `continue`s (note: without incrementing `processed`).  On a
non-error label the cluster is looked up by name.  Existing cluster: the
member `$push` runs first, then the article's `cluster_id` is set
unconditionally, and only then is the push's `modified_count` inspected —
zero modified counts the article failed although its `cluster_id` was just
written.  Missing cluster: a fresh cluster is inserted with the article as
single member, then the article's `cluster_id` is set.  Exceptions in
either `try` block are caught and counted failed.  An article without an
`_id` key raises inside the `try` (a `KeyError` at `article["_id"]`) and is
counted failed.  Returns the new store, the new in-memory `cluster_names`
list, and the effects. -/
def clusterStep (oracle : Article → List String → Option String)
    (beh : String → StoreB) (st : Store) (names : List String) (a : Article) :
    Store × List String × ClusterEff :=
  match a.clusterId with
  | some _ => (st, names, ⟨1, 0, 0, 0, 1, [], []⟩)
  | none =>
      let label := determine_cluster oracle a names
      if label = "error" then
        (st, names, ⟨0, 0, 0, 1, 0, [a], []⟩)
      else
        match findCluster st.clusters label with
        | some c =>
            match a.oid with
            | none => (st, names, ⟨1, 0, 0, 1, 0, [a], []⟩)
            | some aid =>
                match beh aid with
                | StoreB.pushThrow => (st, names, ⟨1, 0, 0, 1, 0, [a], []⟩)
                | StoreB.modZero =>
                    (⟨st.original, setClusterIdFirst st.cleanCol aid c.clid,
                        st.clusters, st.nextClusterId⟩,
                     names, ⟨1, 0, 0, 1, 0, [a], [WEvent.setClusterId aid c.clid]⟩)
                | StoreB.setThrow =>
                    (⟨st.original, st.cleanCol,
                        pushMemberList st.clusters c.clid aid, st.nextClusterId⟩,
                     names, ⟨1, 0, 0, 1, 0, [a], [WEvent.pushMember c.clid aid]⟩)
                | _ =>
                    (⟨st.original, setClusterIdFirst st.cleanCol aid c.clid,
                        pushMemberList st.clusters c.clid aid, st.nextClusterId⟩,
                     names,
                     ⟨1, 1, 0, 0, 0, [a],
                      [WEvent.pushMember c.clid aid, WEvent.setClusterId aid c.clid]⟩)
        | none =>
            match a.oid with
            | none => (st, names, ⟨1, 0, 0, 1, 0, [a], []⟩)
            | some aid =>
                let nc : Cluster := ⟨st.nextClusterId, label, [aid]⟩
                match beh aid with
                | StoreB.insThrow => (st, names, ⟨1, 0, 0, 1, 0, [a], []⟩)
                | StoreB.setThrow =>
                    (⟨st.original, st.cleanCol, st.clusters ++ [nc],
                        st.nextClusterId + 1⟩,
                     names, ⟨1, 0, 0, 1, 0, [a], [WEvent.insertCluster nc]⟩)
                | _ =>
                    (⟨st.original, setClusterIdFirst st.cleanCol aid nc.clid,
                        st.clusters ++ [nc], st.nextClusterId + 1⟩,
                     names ++ [label],
                     ⟨1, 0, 1, 0, 0, [a],
                      [WEvent.insertCluster nc, WEvent.setClusterId aid nc.clid]⟩)

/-- The processing loop of `cluster_articles` over the loaded article
snapshot, threading the store and the in-memory `cluster_names` list. -/
def cluster_loop (oracle : Article → List String → Option String)
    (beh : String → StoreB) :
    List Article → Store → List String → Store × List String × ClusterEff
  | [], st, names => (st, names, ⟨0, 0, 0, 0, 0, [], []⟩)
  | a :: rest, st, names =>
      let p1 := clusterStep oracle beh st names a
      let p2 := cluster_loop oracle beh rest p1.1 p1.2.1
      (p2.1, p2.2.1, clusterEffAdd p1.2.2 p2.2.2)

/-- `cluster_articles` (src/cluster_articles.py lines 195-345): loads the
whole `clean_articles` collection as the batch and the cluster names from
the `clusters` collection, then runs the loop. -/
def cluster_articles (oracle : Article → List String → Option String)
    (beh : String → StoreB) (st : Store) : Store × List String × ClusterEff :=
  cluster_loop oracle beh st.cleanCol st (st.clusters.map Cluster.name)

/-! ### Group-membership invariant (spec section 3, claim C7) -/

/-- All member ids appearing in any cluster of the collection. -/
def allMembers (cs : List Cluster) : List String :=
  (cs.map Cluster.articles).flatten

/-- Each cluster's member list is duplicate-free. -/
def membersNodup (cs : List Cluster) : Prop :=
  ∀ c ∈ cs, c.articles.Nodup

/-- No identifier appears in the member lists of two clusters of the
collection. -/
def membersDisjoint (cs : List Cluster) : Prop :=
  cs.Pairwise (fun c d => ∀ x ∈ c.articles, x ∉ d.articles)

/-! ### The concurrency limiter of clean_data

`clean_data` creates `asyncio.Semaphore(5)` (src/data_cleaner.py lines
243-245) and each `clean_article` task acquires it as its first statement
and releases it in a `finally` block (lines 127-128, 189-190), so a slot is
held across the whole HTTP request and released on every exit path.  The
event loop interleaves the tasks; we model the interleaving as a small-step
transition system over the task phases. -/

/-- `max_concurrent_tasks = 5` (src/data_cleaner.py line 244). -/
def max_concurrent_tasks : Nat := 5

/-- Phase of one `clean_article` task: not yet started; holding a
semaphore slot but the HTTP request not yet issued; holding a slot with
the request outstanding (in flight); finished (slot released in the
`finally` block, on every exit path). -/
inductive Phase where
  | pending
  | holding
  | inFlight
  | done
deriving DecidableEq, Repr

/-- State of the event loop: the semaphore's free-slot count and the phase
of each task. -/
structure SemState where
  sem : Nat
  tasks : List Phase
deriving DecidableEq, Repr

/-- Initial state for a batch of `n` eligible records: all tasks pending,
all `max_concurrent_tasks` slots free. -/
def semInit (n : Nat) : SemState :=
  ⟨max_concurrent_tasks, List.replicate n Phase.pending⟩

/-- One scheduler step: a pending task completes `semaphore.acquire()`
(possible only when a slot is free, and it consumes the slot); a holding
task issues `session.post` (its request becomes in flight); an in-flight
task receives its response or raises, and runs the `finally` release
(freeing the slot).  The release happens on every exit path, so `finish`
is the only transition out of `inFlight`. -/
inductive SemStep : SemState → SemState → Prop where
  | acquire (s : SemState) (i : Nat) (hi : s.tasks.get? i = some Phase.pending)
      (hs : 0 < s.sem) :
      SemStep s ⟨s.sem - 1, s.tasks.set i Phase.holding⟩
  | send (s : SemState) (i : Nat) (hi : s.tasks.get? i = some Phase.holding) :
      SemStep s ⟨s.sem, s.tasks.set i Phase.inFlight⟩
  | finish (s : SemState) (i : Nat) (hi : s.tasks.get? i = some Phase.inFlight) :
      SemStep s ⟨s.sem + 1, s.tasks.set i Phase.done⟩

/-- States reachable by the event loop from the initial state of an
`n`-task batch. -/
def SemReachable (n : Nat) (s : SemState) : Prop :=
  Relation.ReflTransGen SemStep (semInit n) s

/-- A task currently holds a semaphore slot. -/
def holdsSlot : Phase → Bool
  | Phase.holding => true
  | Phase.inFlight => true
  | _ => false

/-- A task's HTTP request is currently outstanding. -/
def isInFlight : Phase → Bool
  | Phase.inFlight => true
  | _ => false

/-- Number of oracle requests simultaneously outstanding. -/
def countInFlight (s : SemState) : Nat :=
  s.tasks.countP isInFlight

/-- Number of semaphore slots currently held by tasks. -/
def countHolding (s : SemState) : Nat :=
  s.tasks.countP holdsSlot

/-! ### The retry session of process_data.py -/

/-- The retry configuration built by `create_session_with_retries`
(src/process_data.py lines 71-83): `Retry(total=5, backoff_factor=2,
status_forcelist=[500, 502, 503, 504], allowed_methods=["POST"])`. -/
structure RetryPolicy where
  total : Nat
  backoff_factor : Nat
  status_forcelist : List Nat
deriving DecidableEq, Repr

/-- The policy mounted by `create_session_with_retries`. -/
def retry_strategy : RetryPolicy :=
  ⟨5, 2, [500, 502, 503, 504]⟩

/-- The transport behaviour of a bare `requests.post` call (as in
`determine_cluster`) and of a plain `aiohttp.ClientSession` request (as in
`clean_article`): no adapter is mounted, so no automatic retries are
performed. -/
def no_retry_transport : RetryPolicy :=
  ⟨0, 0, []⟩

/-- Outcome of one attempt at the wire: an HTTP status line, or a
connection-level failure (connect/read timeout, reset, DNS). -/
inductive AttemptOutcome where
  | status (code : Nat)
  | connFail
deriving DecidableEq, Repr

/-- Whether urllib3's `Retry` retries after this attempt outcome: any
connection-level error, or a status in the `status_forcelist`. -/
def retriable (p : RetryPolicy) : AttemptOutcome → Bool
  | AttemptOutcome.status code => decide (code ∈ p.status_forcelist)
  | AttemptOutcome.connFail => true

/-- The attempt loop of a mounted `Retry` adapter: `server k` is the
outcome of the `k`-th attempt (0-based); at most `fuel` retries remain.
Returns the total number of attempts made and the final outcome. -/
def retryLoop (p : RetryPolicy) (server : Nat → AttemptOutcome) :
    Nat → Nat → Nat × AttemptOutcome
  | 0, k => (k + 1, server k)
  | fuel + 1, k =>
      if retriable p (server k) then retryLoop p server fuel (k + 1)
      else (k + 1, server k)

/-- A `session.post` through an adapter with policy `p`: up to `p.total`
retries after the first attempt. -/
def sessionPost (p : RetryPolicy) (server : Nat → AttemptOutcome) :
    Nat × AttemptOutcome :=
  retryLoop p server p.total 0

/-- urllib3's exponential backoff: the sleep before the `k`-th retry
(`k ≥ 1`) is `backoff_factor * 2^(k-1)`. -/
def backoff_time (p : RetryPolicy) (k : Nat) : Nat :=
  p.backoff_factor * 2 ^ (k - 1)

/-- The oracle call of `determine_cluster` (src/cluster_articles.py lines
143-148) goes through the module-level `requests.post`, not through
`create_session_with_retries`, so it uses the default no-retry
transport. -/
def determine_cluster_post (server : Nat → AttemptOutcome) : Nat × AttemptOutcome :=
  sessionPost no_retry_transport server

/-- The oracle call of `clean_article` (src/data_cleaner.py lines 139-144)
goes through a plain `aiohttp.ClientSession` with no retry middleware, so
it uses the default no-retry transport. -/
def clean_article_post (server : Nat → AttemptOutcome) : Nat × AttemptOutcome :=
  sessionPost no_retry_transport server

/-! ### Decidability of the membership invariant -/

instance (cs : List Cluster) : Decidable (membersNodup cs) :=
  inferInstanceAs (Decidable (∀ c ∈ cs, c.articles.Nodup))

instance (cs : List Cluster) : Decidable (membersDisjoint cs) :=
  inferInstanceAs (Decidable (cs.Pairwise _))

/-! ### Concrete scenarios used by counterexamples and witnesses -/

/-- An uncleaned, unclustered article with identifier "a". -/
def exArticle : Article := ⟨some "a", false, none, "raw"⟩

/-- A store holding only `exArticle` in the original collection. -/
def exStoreClean : Store := ⟨[exArticle], [], [], 0⟩

/-- A store holding only `exArticle` in the clean collection, with no
clusters yet. -/
def exStoreCluster : Store := ⟨[], [exArticle], [], 0⟩

/-- A store in which cluster "X" already lists "a" as a member while the
article "a" itself carries no `cluster_id` — a state the engine itself
reaches when the `$push` succeeds and the subsequent `cluster_id` update
raises (src/cluster_articles.py lines 284-306). -/
def exStoreX : Store := ⟨[], [exArticle], [⟨0, "X", ["a"]⟩], 1⟩

/-- An article whose document lacks the `_id` key. -/
def exMissingId : Article := ⟨none, false, none, "b"⟩

/-- A store holding only the id-less article. -/
def exStoreMissing : Store := ⟨[exMissingId], [], [], 0⟩

/-- A fixed successful oracle output for cleaning scenarios. -/
def exCleanDoc : Article := ⟨some "c", false, none, "clean"⟩

/-! ### Helper lemmas -/

theorem clean_article_of_fail (oracle : Article → Option Article) (a : Article)
    (h : oracle a = none) : clean_article oracle a = a := by
  simp [clean_article, h]

theorem findOriginal_setClusterIdFirst (l : List Article) (aid : String) (clid : Nat) :
    findOriginal (setClusterIdFirst l aid clid) aid =
      (findOriginal l aid).map (fun b => ⟨b.oid, b.cleaned, some clid, b.body⟩) := by
  induction l with
  | nil => simp [setClusterIdFirst, findOriginal]
  | cons x rest ih =>
      by_cases h : x.oid = some aid
      · simp [setClusterIdFirst, findOriginal, h]
      · simp [setClusterIdFirst, findOriginal, h, ih]

theorem retryLoop_attempts_le (p : RetryPolicy) (server : Nat → AttemptOutcome) :
    ∀ (fuel k : Nat), (retryLoop p server fuel k).1 ≤ k + fuel + 1 := by
  intro fuel
  induction fuel with
  | zero => intro k; simp [retryLoop]
  | succ f ih =>
      intro k
      simp only [retryLoop]
      split
      · exact le_trans (ih (k + 1)) (by omega)
      · simp

theorem cleanStep_skipped (oracle : Article → Option Article)
    (insertOk : Article → Bool) (updateOk : String → Bool) (st : Store) (a : Article) :
    (cleanStep oracle insertOk updateOk st a).2.skipped =
      if a.cleaned then 1 else 0 := by
  simp only [cleanStep]
  repeat' split
  all_goals rfl

theorem cleanStep_ledger (oracle : Article → Option Article)
    (insertOk : Article → Bool) (updateOk : String → Bool) (st : Store) (a : Article) :
    (cleanStep oracle insertOk updateOk st a).2.saved +
      (cleanStep oracle insertOk updateOk st a).2.failed +
      (cleanStep oracle insertOk updateOk st a).2.skipped = 1 := by
  simp only [cleanStep]
  repeat' split
  all_goals rfl

theorem cleanStep_calls (oracle : Article → Option Article)
    (insertOk : Article → Bool) (updateOk : String → Bool) (st : Store) (a : Article) :
    (cleanStep oracle insertOk updateOk st a).2.calls = [] ∨
    ((cleanStep oracle insertOk updateOk st a).2.calls = [a] ∧ a.cleaned = false) := by
  simp only [cleanStep]
  split
  · exact Or.inl rfl
  · rename_i hc
    have hc' : a.cleaned = false := by simpa using hc
    split
    · exact Or.inl rfl
    · repeat' split
      all_goals exact Or.inr ⟨rfl, hc'⟩

theorem clean_data_skipped_count (oracle : Article → Option Article)
    (insertOk : Article → Bool) (updateOk : String → Bool) :
    ∀ (data : List Article) (st : Store),
      (clean_data oracle insertOk updateOk data st).2.skipped =
        data.countP (fun x => x.cleaned) := by
  intro data
  induction data with
  | nil => intro st; rfl
  | cons a rest ih =>
      intro st
      simp only [clean_data, cleanEffAdd, List.countP_cons]
      rw [cleanStep_skipped, ih]
      by_cases hc : a.cleaned <;> (simp [hc]; try omega)

theorem clean_data_ledger (oracle : Article → Option Article)
    (insertOk : Article → Bool) (updateOk : String → Bool) :
    ∀ (data : List Article) (st : Store),
      (clean_data oracle insertOk updateOk data st).2.saved +
        (clean_data oracle insertOk updateOk data st).2.failed +
        (clean_data oracle insertOk updateOk data st).2.skipped = data.length := by
  intro data
  induction data with
  | nil => intro st; rfl
  | cons a rest ih =>
      intro st
      simp only [clean_data, cleanEffAdd, List.length_cons]
      have h1 := cleanStep_ledger oracle insertOk updateOk st a
      have h2 := ih (cleanStep oracle insertOk updateOk st a).1
      omega

theorem clean_data_calls_unflagged (oracle : Article → Option Article)
    (insertOk : Article → Bool) (updateOk : String → Bool) :
    ∀ (data : List Article) (st : Store),
      ∀ x ∈ (clean_data oracle insertOk updateOk data st).2.calls,
        x.cleaned = false := by
  intro data
  induction data with
  | nil => intro st x hx; simp [clean_data] at hx
  | cons a rest ih =>
      intro st x hx
      simp only [clean_data, cleanEffAdd, List.mem_append] at hx
      rcases hx with hx | hx
      · rcases cleanStep_calls oracle insertOk updateOk st a with h | ⟨h, hc⟩
        · rw [h] at hx; simp at hx
        · rw [h] at hx
          simp only [List.mem_singleton] at hx
          rw [hx]; exact hc
      · exact ih _ x hx

theorem clusterStep_skipped (oracleK : Article → List String → Option String)
    (beh : String → StoreB) (st : Store) (names : List String) (a : Article) :
    (clusterStep oracleK beh st names a).2.2.skipped =
      if a.clusterId.isSome then 1 else 0 := by
  simp only [clusterStep]
  split
  · rename_i v heq
    simp [heq]
  · rename_i heq
    simp only [heq, Option.isSome_none, Bool.false_eq_true, if_false]
    repeat' split
    all_goals rfl

theorem clusterStep_ledger (oracleK : Article → List String → Option String)
    (beh : String → StoreB) (st : Store) (names : List String) (a : Article) :
    (clusterStep oracleK beh st names a).2.2.skipped +
      (clusterStep oracleK beh st names a).2.2.added +
      (clusterStep oracleK beh st names a).2.2.newClusters +
      (clusterStep oracleK beh st names a).2.2.failed = 1 := by
  simp only [clusterStep]
  repeat' split
  all_goals rfl

theorem clusterStep_processed (oracleK : Article → List String → Option String)
    (beh : String → StoreB) (st : Store) (names : List String) (a : Article)
    (h : determine_cluster oracleK a names ≠ "error") :
    (clusterStep oracleK beh st names a).2.2.processed = 1 := by
  simp only [clusterStep]
  split <;> try rfl
  split
  · rename_i hlbl
    exact absurd hlbl h
  · repeat' split
    all_goals rfl

theorem clusterStep_calls (oracleK : Article → List String → Option String)
    (beh : String → StoreB) (st : Store) (names : List String) (a : Article) :
    (clusterStep oracleK beh st names a).2.2.calls = [] ∨
    ((clusterStep oracleK beh st names a).2.2.calls = [a] ∧ a.clusterId = none) := by
  simp only [clusterStep]
  split
  · exact Or.inl rfl
  · rename_i hun
    repeat' split
    all_goals exact Or.inr ⟨rfl, hun⟩

theorem cluster_loop_skipped_count (oracleK : Article → List String → Option String)
    (beh : String → StoreB) :
    ∀ (batch : List Article) (st : Store) (names : List String),
      (cluster_loop oracleK beh batch st names).2.2.skipped =
        batch.countP (fun x => x.clusterId.isSome) := by
  intro batch
  induction batch with
  | nil => intro st names; rfl
  | cons a rest ih =>
      intro st names
      simp only [cluster_loop, clusterEffAdd, List.countP_cons]
      rw [clusterStep_skipped, ih]
      by_cases hc : a.clusterId.isSome <;> (simp [hc]; try omega)

theorem cluster_loop_ledger (oracleK : Article → List String → Option String)
    (beh : String → StoreB) :
    ∀ (batch : List Article) (st : Store) (names : List String),
      (cluster_loop oracleK beh batch st names).2.2.skipped +
        (cluster_loop oracleK beh batch st names).2.2.added +
        (cluster_loop oracleK beh batch st names).2.2.newClusters +
        (cluster_loop oracleK beh batch st names).2.2.failed = batch.length := by
  intro batch
  induction batch with
  | nil => intro st names; rfl
  | cons a rest ih =>
      intro st names
      simp only [cluster_loop, clusterEffAdd, List.length_cons]
      have h1 := clusterStep_ledger oracleK beh st names a
      have h2 := ih (clusterStep oracleK beh st names a).1
        (clusterStep oracleK beh st names a).2.1
      omega

theorem cluster_loop_processed (oracleK : Article → List String → Option String)
    (beh : String → StoreB) :
    ∀ (batch : List Article) (st : Store) (names : List String),
      (∀ a ∈ batch, ∀ ns, determine_cluster oracleK a ns ≠ "error") →
      (cluster_loop oracleK beh batch st names).2.2.processed = batch.length := by
  intro batch
  induction batch with
  | nil => intro st names _; rfl
  | cons a rest ih =>
      intro st names hok
      simp only [cluster_loop, clusterEffAdd, List.length_cons]
      rw [clusterStep_processed oracleK beh st names a
        (hok a (List.mem_cons_self a rest) names)]
      rw [ih _ _ (fun x hx ns => hok x (List.mem_cons_of_mem a hx) ns)]
      omega

theorem cluster_loop_calls_unflagged (oracleK : Article → List String → Option String)
    (beh : String → StoreB) :
    ∀ (batch : List Article) (st : Store) (names : List String),
      ∀ x ∈ (cluster_loop oracleK beh batch st names).2.2.calls,
        x.clusterId = none := by
  intro batch
  induction batch with
  | nil => intro st names x hx; simp [cluster_loop] at hx
  | cons a rest ih =>
      intro st names x hx
      simp only [cluster_loop, clusterEffAdd, List.mem_append] at hx
      rcases hx with hx | hx
      · rcases clusterStep_calls oracleK beh st names a with h | ⟨h, hc⟩
        · rw [h] at hx; simp at hx
        · rw [h] at hx
          simp only [List.mem_singleton] at hx
          rw [hx]; exact hc
      · exact ih _ _ x hx

/-! ### Claim C1 -/

/-- C1 counterexample: for the tag-and-duplicate strategy the claim is
false.  With a single uncleaned article and an oracle that fails on it,
`clean_data` still performs store writes for the record (the trace is
nonempty: the original article is inserted into `clean_articles`) and
flips its `cleaned` marker, so the record is not left eligible for a
re-attempt. -/
theorem c1_counterexample :
    (clean_data (fun _ => none) (fun _ => true) (fun _ => true)
        [exArticle] exStoreClean).2.trace ≠ [] ∧
    (clean_data (fun _ => none) (fun _ => true) (fun _ => true)
        [exArticle] exStoreClean).1.original ≠ exStoreClean.original := by
  decide

/-- C1 (amended): on oracle failure the classify-and-bucket strategy
indeed performs no store write and leaves the record's markers untouched
(the step returns the store unchanged and only counts the record failed),
but the tag-and-duplicate strategy behaves differently: `clean_article`
returns the original article on every failure path, and `clean_data` then
inserts that original into `clean_articles` and proceeds with the
`cleaned := true` marker update exactly as on success, so the record is
not re-attempted on a later run. -/
theorem c1_amended
    (oracleK : Article → List String → Option String) (beh : String → StoreB)
    (st : Store) (names : List String) (a : Article)
    (oracleC : Article → Option Article) (insertOk : Article → Bool)
    (updateOk : String → Bool) (st2 : Store) (b : Article) (bid : String)
    (ha1 : a.clusterId = none) (ha2 : oracleK a names = none)
    (hb1 : b.cleaned = false) (hb2 : b.oid = some bid)
    (hb3 : oracleC b = none) (hb4 : insertOk b = true) :
    clusterStep oracleK beh st names a = (st, names, ⟨0, 0, 0, 1, 0, [a], []⟩) ∧
    clean_article oracleC b = b ∧
    (cleanStep oracleC insertOk updateOk st2 b).1.cleanCol = st2.cleanCol ++ [b] ∧
    (cleanStep oracleC insertOk updateOk st2 b).2.saved = 1 ∧
    (cleanStep oracleC insertOk updateOk st2 b).2.trace.head? =
      some (WEvent.insertClean b) ∧
    (updateOk bid = true → ∀ bb, findOriginal st2.original bid = some bb →
      bb.cleaned = false →
      (cleanStep oracleC insertOk updateOk st2 b).1.original =
        setCleanedFirst st2.original bid) := by
  have hca : clean_article oracleC b = b := clean_article_of_fail oracleC b hb3
  refine ⟨?_, hca, ?_, ?_, ?_, ?_⟩
  · simp [clusterStep, ha1, determine_cluster, ha2]
  · simp only [cleanStep, hb1, hb2, hca, hb4, if_false, if_true, Bool.false_eq_true]
    split <;> try rfl
    all_goals split <;> try rfl
    all_goals split <;> try rfl
  · simp only [cleanStep, hb1, hb2, hca, hb4, if_false, if_true, Bool.false_eq_true]
    split <;> try rfl
    all_goals split <;> try rfl
    all_goals split <;> try rfl
  · simp only [cleanStep, hb1, hb2, hca, hb4, if_false, if_true, Bool.false_eq_true]
    split <;> try rfl
    all_goals split <;> try rfl
    all_goals split <;> try rfl
  · intro hupd bb hfind hbb
    simp only [cleanStep, hb1, hb2, hca, hb4, hupd, hfind, hbb, if_true,
      Bool.false_eq_true, if_false]
    try rfl

/-- C1 amended, witnessed at the concrete failing scenario. -/
theorem c1_amended_witness :
    clusterStep (fun _ _ => none) (fun _ => StoreB.ok) exStoreCluster [] exArticle =
      (exStoreCluster, [], ⟨0, 0, 0, 1, 0, [exArticle], []⟩) ∧
    clean_article (fun _ => none) exArticle = exArticle ∧
    (cleanStep (fun _ => none) (fun _ => true) (fun _ => true)
        exStoreClean exArticle).1.cleanCol = exStoreClean.cleanCol ++ [exArticle] ∧
    (cleanStep (fun _ => none) (fun _ => true) (fun _ => true)
        exStoreClean exArticle).2.saved = 1 ∧
    (cleanStep (fun _ => none) (fun _ => true) (fun _ => true)
        exStoreClean exArticle).2.trace.head? =
      some (WEvent.insertClean exArticle) ∧
    ((fun _ : String => true) "a" = true → ∀ bb,
      findOriginal exStoreClean.original "a" = some bb → bb.cleaned = false →
      (cleanStep (fun _ => none) (fun _ => true) (fun _ => true)
          exStoreClean exArticle).1.original =
        setCleanedFirst exStoreClean.original "a") :=
  c1_amended (fun _ _ => none) (fun _ => StoreB.ok) exStoreCluster [] exArticle
    (fun _ => none) (fun _ => true) (fun _ => true) exStoreClean exArticle "a"
    rfl rfl rfl rfl rfl rfl

/-! ### Claim C3 -/

/-- C3: in the tag-and-duplicate strategy the two writes are strictly
ordered insert-then-mark.  If the insert of the cleaned copy fails, the
step leaves the whole store (in particular the original record's marker)
unchanged and counts the record failed; and whenever the marker write
appears in the step's trace, the insert succeeded and the trace is
exactly the insert followed by the marker update. -/
theorem c3_insert_then_mark
    (oracle : Article → Option Article) (insertOk : Article → Bool)
    (updateOk : String → Bool) (st : Store) (a : Article) (aid : String)
    (h1 : a.cleaned = false) (h2 : a.oid = some aid) :
    (insertOk (clean_article oracle a) = false →
      cleanStep oracle insertOk updateOk st a = (st, ⟨0, 0, 1, 0, [a], []⟩)) ∧
    (WEvent.markCleaned aid ∈ (cleanStep oracle insertOk updateOk st a).2.trace →
      insertOk (clean_article oracle a) = true ∧
      (cleanStep oracle insertOk updateOk st a).2.trace =
        [WEvent.insertClean (clean_article oracle a), WEvent.markCleaned aid]) := by
  constructor
  · intro hins
    simp [cleanStep, h1, h2, hins]
  · intro hmem
    by_cases hins : insertOk (clean_article oracle a) = true
    · refine ⟨hins, ?_⟩
      simp only [cleanStep, h1, h2, hins, Bool.false_eq_true, if_false, if_true] at hmem ⊢
      split at hmem <;> rename_i hupd
      · split at hmem <;> rename_i hfind
        · split at hmem <;> rename_i hbb
          · simp at hmem
          · simp only [hupd, hfind, hbb]
            rfl
        · simp at hmem
      · simp at hmem
    · simp only [Bool.not_eq_true] at hins
      simp [cleanStep, h1, h2, hins] at hmem

/-- C3 witnessed at a concrete insert-failure and a concrete success. -/
theorem c3_insert_then_mark_witness :
    (((fun _ : Article => false) (clean_article (fun _ => some exCleanDoc) exArticle) = false →
      cleanStep (fun _ => some exCleanDoc) (fun _ => false) (fun _ => true)
        exStoreClean exArticle = (exStoreClean, ⟨0, 0, 1, 0, [exArticle], []⟩)) ∧
     (WEvent.markCleaned "a" ∈ (cleanStep (fun _ => some exCleanDoc) (fun _ => false)
        (fun _ => true) exStoreClean exArticle).2.trace →
      (fun _ : Article => false) (clean_article (fun _ => some exCleanDoc) exArticle) = true ∧
      (cleanStep (fun _ => some exCleanDoc) (fun _ => false) (fun _ => true)
        exStoreClean exArticle).2.trace =
        [WEvent.insertClean (clean_article (fun _ => some exCleanDoc) exArticle),
         WEvent.markCleaned "a"])) :=
  c3_insert_then_mark (fun _ => some exCleanDoc) (fun _ => false) (fun _ => true)
    exStoreClean exArticle "a" rfl rfl

/-! ### Claim C5 -/

/-- C5: records already flagged as processed are excluded before
dispatch.  A `cleaned` record makes the cleaning step a pure skip (store
unchanged, only the skip counter moves, no oracle call, no write), and a
record with a `cluster_id` makes the clustering step a pure skip; at run
level the skip counters equal the number of flagged records and no oracle
call is ever issued for a flagged record. -/
theorem c5_filter_skips
    (oracle : Article → Option Article) (insertOk : Article → Bool)
    (updateOk : String → Bool) (oracleK : Article → List String → Option String)
    (beh : String → StoreB) (st : Store) (names : List String)
    (data batch : List Article) :
    (∀ a : Article, a.cleaned = true →
      cleanStep oracle insertOk updateOk st a = (st, ⟨0, 0, 0, 1, [], []⟩)) ∧
    (clean_data oracle insertOk updateOk data st).2.skipped =
      data.countP (fun x => x.cleaned) ∧
    (∀ x ∈ (clean_data oracle insertOk updateOk data st).2.calls,
      x.cleaned = false) ∧
    (∀ (a : Article) (cid : Nat), a.clusterId = some cid →
      clusterStep oracleK beh st names a = (st, names, ⟨1, 0, 0, 0, 1, [], []⟩)) ∧
    (cluster_loop oracleK beh batch st names).2.2.skipped =
      batch.countP (fun x => x.clusterId.isSome) ∧
    (∀ x ∈ (cluster_loop oracleK beh batch st names).2.2.calls,
      x.clusterId = none) := by
  refine ⟨?_, clean_data_skipped_count oracle insertOk updateOk data st,
    clean_data_calls_unflagged oracle insertOk updateOk data st, ?_,
    cluster_loop_skipped_count oracleK beh batch st names,
    cluster_loop_calls_unflagged oracleK beh batch st names⟩
  · intro a ha
    simp [cleanStep, ha]
  · intro a cid ha
    simp [clusterStep, ha]

/-- C5 witnessed on a flagged record for each strategy. -/
theorem c5_filter_skips_witness :
    cleanStep (fun _ => none) (fun _ => true) (fun _ => true) exStoreClean
      ⟨some "a", true, none, "raw"⟩ = (exStoreClean, ⟨0, 0, 0, 1, [], []⟩) ∧
    clusterStep (fun _ _ => none) (fun _ => StoreB.ok) exStoreCluster []
      ⟨some "a", false, some 7, "raw"⟩ =
      (exStoreCluster, [], ⟨1, 0, 0, 0, 1, [], []⟩) :=
  ⟨(c5_filter_skips (fun _ => none) (fun _ => true) (fun _ => true)
      (fun _ _ => none) (fun _ => StoreB.ok) exStoreClean [] [] []).1
      ⟨some "a", true, none, "raw"⟩ rfl,
   (c5_filter_skips (fun _ => none) (fun _ => true) (fun _ => true)
      (fun _ _ => none) (fun _ => StoreB.ok) exStoreCluster [] [] []).2.2.2.1
      ⟨some "a", false, some 7, "raw"⟩ 7 rfl⟩

/-! ### Claim C6 -/

/-- C6 counterexample: the `articles_processed` counter of
`cluster_articles` does not equal the sum of the per-status counters.
With one article whose oracle call fails, the loop `continue`s before
incrementing `articles_processed`, so `processed = 0` while the counter
sum (and the number of submitted records) is 1. -/
theorem c6_counterexample :
    (cluster_articles (fun _ _ => none) (fun _ => StoreB.ok)
        exStoreCluster).2.2.processed ≠
      (cluster_articles (fun _ _ => none) (fun _ => StoreB.ok)
          exStoreCluster).2.2.added +
        (cluster_articles (fun _ _ => none) (fun _ => StoreB.ok)
            exStoreCluster).2.2.newClusters +
        (cluster_articles (fun _ _ => none) (fun _ => StoreB.ok)
            exStoreCluster).2.2.failed +
        (cluster_articles (fun _ _ => none) (fun _ => StoreB.ok)
            exStoreCluster).2.2.skipped := by
  decide

/-- C6 (amended): in both strategies the per-status counters partition
the submitted records — saved + failed + skipped equals the input length
for the cleaning run, and skipped + added-to-existing + new-clusters +
failed equals the batch length for the clustering run — so every record
receives exactly one terminal status; the clustering run's
`articles_processed` counter, however, equals the batch length only when
no oracle call fails, because the oracle-failure path skips its
increment. -/
theorem c6_ledger_amended
    (oracle : Article → Option Article) (insertOk : Article → Bool)
    (updateOk : String → Bool) (oracleK : Article → List String → Option String)
    (beh : String → StoreB) (data batch : List Article) (st st2 : Store)
    (names : List String) :
    (clean_data oracle insertOk updateOk data st).2.saved +
      (clean_data oracle insertOk updateOk data st).2.failed +
      (clean_data oracle insertOk updateOk data st).2.skipped = data.length ∧
    (cluster_loop oracleK beh batch st2 names).2.2.skipped +
      (cluster_loop oracleK beh batch st2 names).2.2.added +
      (cluster_loop oracleK beh batch st2 names).2.2.newClusters +
      (cluster_loop oracleK beh batch st2 names).2.2.failed = batch.length ∧
    ((∀ a ∈ batch, ∀ ns, determine_cluster oracleK a ns ≠ "error") →
      (cluster_loop oracleK beh batch st2 names).2.2.processed = batch.length) :=
  ⟨clean_data_ledger oracle insertOk updateOk data st,
   cluster_loop_ledger oracleK beh batch st2 names,
   cluster_loop_processed oracleK beh batch st2 names⟩

/-- C6 amended, witnessed on a one-record batch with a successful
oracle. -/
theorem c6_ledger_amended_witness :
    (cluster_loop (fun _ _ => some "X") (fun _ => StoreB.ok) [exArticle]
        exStoreCluster []).2.2.processed = [exArticle].length :=
  (c6_ledger_amended (fun _ => none) (fun _ => true) (fun _ => true)
      (fun _ _ => some "X") (fun _ => StoreB.ok) [] [exArticle]
      exStoreClean exStoreCluster []).2.2
    (by intro a ha ns; simp [determine_cluster])

/-! ### Claim C8 -/

/-- C8 counterexample: the retry behaviour of
`create_session_with_retries` does not apply to the oracle calls of the
two strategies.  Against a server that always answers 503, the mounted
retry session makes 6 attempts (5 retries), while `determine_cluster` and
`clean_article` — which post through a bare transport — make exactly one
attempt. -/
theorem c8_counterexample :
    determine_cluster_post (fun _ => AttemptOutcome.status 503) =
      (1, AttemptOutcome.status 503) ∧
    clean_article_post (fun _ => AttemptOutcome.status 503) =
      (1, AttemptOutcome.status 503) ∧
    sessionPost retry_strategy (fun _ => AttemptOutcome.status 503) =
      (6, AttemptOutcome.status 503) ∧
    (determine_cluster_post (fun _ => AttemptOutcome.status 503)).1 ≠
      (sessionPost retry_strategy (fun _ => AttemptOutcome.status 503)).1 := by
  decide

/-- C8 (amended): the session built by `create_session_with_retries`
retries listed 5xx statuses and connection-level failures up to the fixed
bound of 5 retries (6 attempts) with exponential backoff of factor 2, and
never retries a 4xx response; but this session is used only by
`process_data` — the oracle calls of the two engine strategies
(`determine_cluster`, `clean_article`) go through bare transports and
make exactly one attempt. -/
theorem c8_amended :
    (∀ server, (sessionPost retry_strategy server).1 ≤ retry_strategy.total + 1) ∧
    (∀ code, 400 ≤ code → code < 500 →
      sessionPost retry_strategy (fun _ => AttemptOutcome.status code) =
        (1, AttemptOutcome.status code)) ∧
    (sessionPost retry_strategy (fun _ => AttemptOutcome.connFail)).1 =
      retry_strategy.total + 1 ∧
    (sessionPost retry_strategy (fun _ => AttemptOutcome.status 503)).1 =
      retry_strategy.total + 1 ∧
    (∀ k, backoff_time retry_strategy (k + 2) =
      2 * backoff_time retry_strategy (k + 1)) ∧
    (∀ server, (determine_cluster_post server).1 = 1 ∧
      (clean_article_post server).1 = 1) := by
  refine ⟨?_, ?_, by decide, by decide, ?_, ?_⟩
  · intro server
    exact le_trans (retryLoop_attempts_le retry_strategy server retry_strategy.total 0)
      (by simp [retry_strategy])
  · intro code hlo hhi
    have hc : retriable (⟨5, 2, [500, 502, 503, 504]⟩ : RetryPolicy)
        (AttemptOutcome.status code) = false := by
      simp only [retriable, decide_eq_false_iff_not]
      intro hmem
      fin_cases hmem <;> omega
    simp [sessionPost, retry_strategy, retryLoop, hc]
  · intro k
    simp [backoff_time, retry_strategy, pow_succ]
    ring
  · intro server
    constructor <;> rfl

/-- C8 amended, witnessed at a concrete 4xx status. -/
theorem c8_amended_witness :
    sessionPost retry_strategy (fun _ => AttemptOutcome.status 404) =
      (1, AttemptOutcome.status 404) :=
  c8_amended.2.1 404 (by decide) (by decide)

/-! ### Claim C9 -/

/-- C9: on the existing-group path, when the member-list `$push` matches
but modifies nothing, the record is counted failed — yet its `cluster_id`
has already been written unconditionally before the check, so the stored
document now carries the group reference and every subsequent run skips
the record as already-done instead of re-attempting it. -/
theorem c9_modzero_failed_yet_marked
    (oracleK : Article → List String → Option String) (beh : String → StoreB)
    (st : Store) (names : List String) (a : Article) (aid : String) (c : Cluster)
    (h1 : a.clusterId = none) (h2 : a.oid = some aid)
    (h3 : determine_cluster oracleK a names ≠ "error")
    (h4 : findCluster st.clusters (determine_cluster oracleK a names) = some c)
    (h5 : beh aid = StoreB.modZero) :
    clusterStep oracleK beh st names a =
      (⟨st.original, setClusterIdFirst st.cleanCol aid c.clid, st.clusters,
          st.nextClusterId⟩,
       names, ⟨1, 0, 0, 1, 0, [a], [WEvent.setClusterId aid c.clid]⟩) ∧
    findOriginal (setClusterIdFirst st.cleanCol aid c.clid) aid =
      (findOriginal st.cleanCol aid).map
        (fun b => ⟨b.oid, b.cleaned, some c.clid, b.body⟩) ∧
    (∀ (or2 : Article → List String → Option String) (beh2 : String → StoreB)
       (st2 : Store) (names2 : List String) (b : Article),
       b.clusterId = some c.clid →
       clusterStep or2 beh2 st2 names2 b = (st2, names2, ⟨1, 0, 0, 0, 1, [], []⟩)) := by
  refine ⟨?_, findOriginal_setClusterIdFirst st.cleanCol aid c.clid, ?_⟩
  · simp [clusterStep, h1, h3, h4, h2, h5]
  · intro or2 beh2 st2 names2 b hb
    simp [clusterStep, hb]

/-- C9 witnessed at the concrete modified-zero scenario. -/
theorem c9_modzero_failed_yet_marked_witness :
    clusterStep (fun _ _ => some "X") (fun _ => StoreB.modZero) exStoreX [] exArticle =
      (⟨exStoreX.original, setClusterIdFirst exStoreX.cleanCol "a" 0,
          exStoreX.clusters, exStoreX.nextClusterId⟩,
       [], ⟨1, 0, 0, 1, 0, [exArticle], [WEvent.setClusterId "a" 0]⟩) ∧
    findOriginal (setClusterIdFirst exStoreX.cleanCol "a" 0) "a" =
      (findOriginal exStoreX.cleanCol "a").map
        (fun b => ⟨b.oid, b.cleaned, some 0, b.body⟩) ∧
    (∀ (or2 : Article → List String → Option String) (beh2 : String → StoreB)
       (st2 : Store) (names2 : List String) (b : Article),
       b.clusterId = some 0 →
       clusterStep or2 beh2 st2 names2 b = (st2, names2, ⟨1, 0, 0, 0, 1, [], []⟩)) :=
  c9_modzero_failed_yet_marked (fun _ _ => some "X") (fun _ => StoreB.modZero)
    exStoreX [] exArticle "a" ⟨0, "X", ["a"]⟩ rfl rfl (by decide) (by decide) rfl

/-! ### Claim C10 -/

/-- C10: `determine_cluster` signals failure in-band with the sentinel
string "error" — every failure path returns that literal, the caller
treats exactly that string as failure (counting the record failed with no
group created or updated), and an oracle that successfully returns the
label "error" is indistinguishable from a genuine failure: the step
produces identical state and counters. -/
theorem c10_error_sentinel
    (oracle1 oracle2 : Article → List String → Option String)
    (beh : String → StoreB) (st : Store) (names : List String) (a : Article)
    (h1 : oracle1 a names = none) (h2 : oracle2 a names = some "error")
    (h3 : a.clusterId = none) :
    determine_cluster oracle1 a names = "error" ∧
    determine_cluster oracle2 a names = "error" ∧
    clusterStep oracle1 beh st names a = (st, names, ⟨0, 0, 0, 1, 0, [a], []⟩) ∧
    clusterStep oracle2 beh st names a = clusterStep oracle1 beh st names a := by
  refine ⟨by simp [determine_cluster, h1], by simp [determine_cluster, h2], ?_, ?_⟩
  · simp [clusterStep, h3, determine_cluster, h1]
  · simp [clusterStep, h3, determine_cluster, h1, h2]

/-- C10 witnessed: a genuinely failing oracle and an oracle that returns
the label "error" produce the same failed outcome on the same store. -/
theorem c10_error_sentinel_witness :
    determine_cluster (fun _ _ => none) exArticle [] = "error" ∧
    determine_cluster (fun _ _ => some "error") exArticle [] = "error" ∧
    clusterStep (fun _ _ => none) (fun _ => StoreB.ok) exStoreCluster [] exArticle =
      (exStoreCluster, [], ⟨0, 0, 0, 1, 0, [exArticle], []⟩) ∧
    clusterStep (fun _ _ => some "error") (fun _ => StoreB.ok) exStoreCluster [] exArticle =
      clusterStep (fun _ _ => none) (fun _ => StoreB.ok) exStoreCluster [] exArticle :=
  c10_error_sentinel (fun _ _ => none) (fun _ _ => some "error")
    (fun _ => StoreB.ok) exStoreCluster [] exArticle rfl rfl rfl

/-! ### Claim C2 -/

theorem countP_set_of_get (p : Phase → Bool) :
    ∀ (l : List Phase) (i : Nat) (y x : Phase), l.get? i = some y →
      (l.set i x).countP p + (if p y then 1 else 0) =
        l.countP p + (if p x then 1 else 0) := by
  intro l
  induction l with
  | nil => intro i y x h; simp at h
  | cons a rest ih =>
      intro i y x h
      cases i with
      | zero =>
          simp only [List.get?] at h
          cases h
          by_cases hpa : p a <;> by_cases hpx : p x <;>
            simp [hpa, hpx, List.countP_cons]
      | succ j =>
          simp only [List.get?] at h
          have hj := ih j y x h
          by_cases hpa : p a <;>
            simp only [List.set, List.countP_cons, hpa, if_true, if_false] <;>
            omega

/-- The semaphore invariant of the event loop: free slots plus held slots
always amount to the configured capacity. -/
def SemInv (s : SemState) : Prop :=
  s.sem + countHolding s = max_concurrent_tasks

theorem countHolding_semInit (n : Nat) : countHolding (semInit n) = 0 := by
  simp only [countHolding, semInit]
  induction n with
  | zero => rfl
  | succ k ih => simp [List.replicate_succ, List.countP_cons, holdsSlot, ih]

theorem semInv_step {s t : SemState} (hs : SemStep s t) (hinv : SemInv s) :
    SemInv t := by
  cases hs with
  | acquire i hi hsem =>
      have hc := countP_set_of_get holdsSlot s.tasks i Phase.pending Phase.holding hi
      simp [holdsSlot] at hc
      simp only [SemInv, countHolding] at hinv ⊢
      omega
  | send i hi =>
      have hc := countP_set_of_get holdsSlot s.tasks i Phase.holding Phase.inFlight hi
      simp [holdsSlot] at hc
      simp only [SemInv, countHolding] at hinv ⊢
      omega
  | finish i hi =>
      have hc := countP_set_of_get holdsSlot s.tasks i Phase.inFlight Phase.done hi
      simp [holdsSlot] at hc
      simp only [SemInv, countHolding] at hinv ⊢
      omega

theorem semInv_reachable (n : Nat) (s : SemState) (h : SemReachable n s) :
    SemInv s := by
  induction h with
  | refl =>
      have h0 := countHolding_semInit n
      simp only [SemInv, semInit] at h0 ⊢
      omega
  | tail _ hstep ih => exact semInv_step hstep ih

/-- C2: in the cleaning run, at no reachable instant of the event loop
are more than the configured limit (`max_concurrent_tasks = 5`) oracle
requests simultaneously outstanding: every `clean_article` task acquires
a semaphore slot before posting and releases it on every exit path, so
the in-flight count is bounded by the held-slot count, which the
semaphore invariant bounds by the capacity. -/
theorem c2_concurrency_bound (n : Nat) (s : SemState) (h : SemReachable n s) :
    countInFlight s ≤ max_concurrent_tasks := by
  have hinv := semInv_reachable n s h
  have hle : s.tasks.countP isInFlight ≤ s.tasks.countP holdsSlot := by
    apply List.countP_mono_left
    intro a _ hp
    cases a <;> simp_all [isInFlight, holdsSlot]
  simp only [SemInv, countHolding] at hinv
  simp only [countInFlight]
  omega

/-- C2 witnessed on a reachable two-task state with one request in
flight. -/
theorem c2_concurrency_bound_witness :
    SemReachable 2 ⟨4, [Phase.inFlight, Phase.pending]⟩ ∧
    countInFlight ⟨4, [Phase.inFlight, Phase.pending]⟩ ≤ max_concurrent_tasks := by
  have h1 : SemStep (semInit 2) ⟨4, [Phase.holding, Phase.pending]⟩ :=
    SemStep.acquire (semInit 2) 0 rfl (by decide)
  have h2 : SemStep (⟨4, [Phase.holding, Phase.pending]⟩ : SemState)
      ⟨4, [Phase.inFlight, Phase.pending]⟩ :=
    SemStep.send ⟨4, [Phase.holding, Phase.pending]⟩ 0 rfl
  have hreach : SemReachable 2 ⟨4, [Phase.inFlight, Phase.pending]⟩ :=
    Relation.ReflTransGen.tail (Relation.ReflTransGen.tail
      Relation.ReflTransGen.refl h1) h2
  exact ⟨hreach, c2_concurrency_bound 2 _ hreach⟩

/-! ### Step-result lemmas used by the idempotence and invariant proofs -/

theorem cleanStep_flagged (oracle : Article → Option Article)
    (insertOk : Article → Bool) (updateOk : String → Bool) (st : Store)
    (a : Article) (h : a.cleaned = true) :
    cleanStep oracle insertOk updateOk st a = (st, ⟨0, 0, 0, 1, [], []⟩) := by
  simp [cleanStep, h]

theorem cleanStep_noid (oracle : Article → Option Article)
    (insertOk : Article → Bool) (updateOk : String → Bool) (st : Store)
    (a : Article) (h1 : a.cleaned = false) (h2 : a.oid = none) :
    cleanStep oracle insertOk updateOk st a = (st, ⟨0, 0, 1, 0, [], []⟩) := by
  simp [cleanStep, h1, h2]

theorem cleanStep_ok_nofind (oracle : Article → Option Article)
    (insertOk : Article → Bool) (updateOk : String → Bool) (st : Store)
    (a : Article) (aid : String) (h1 : a.cleaned = false) (h2 : a.oid = some aid)
    (h3 : insertOk (clean_article oracle a) = true) (h4 : updateOk aid = true)
    (h5 : findOriginal st.original aid = none) :
    cleanStep oracle insertOk updateOk st a =
      (⟨st.original, st.cleanCol ++ [clean_article oracle a], st.clusters,
          st.nextClusterId⟩,
       ⟨1, 0, 0, 0, [a], [WEvent.insertClean (clean_article oracle a)]⟩) := by
  simp [cleanStep, h1, h2, h3, h4, h5]

theorem cleanStep_ok_nomod (oracle : Article → Option Article)
    (insertOk : Article → Bool) (updateOk : String → Bool) (st : Store)
    (a : Article) (aid : String) (orig : Article)
    (h1 : a.cleaned = false) (h2 : a.oid = some aid)
    (h3 : insertOk (clean_article oracle a) = true) (h4 : updateOk aid = true)
    (h5 : findOriginal st.original aid = some orig) (h6 : orig.cleaned = true) :
    cleanStep oracle insertOk updateOk st a =
      (⟨st.original, st.cleanCol ++ [clean_article oracle a], st.clusters,
          st.nextClusterId⟩,
       ⟨1, 0, 0, 0, [a], [WEvent.insertClean (clean_article oracle a)]⟩) := by
  simp [cleanStep, h1, h2, h3, h4, h5, h6]

theorem cleanStep_ok_marked (oracle : Article → Option Article)
    (insertOk : Article → Bool) (updateOk : String → Bool) (st : Store)
    (a : Article) (aid : String) (orig : Article)
    (h1 : a.cleaned = false) (h2 : a.oid = some aid)
    (h3 : insertOk (clean_article oracle a) = true) (h4 : updateOk aid = true)
    (h5 : findOriginal st.original aid = some orig) (h6 : orig.cleaned = false) :
    cleanStep oracle insertOk updateOk st a =
      (⟨setCleanedFirst st.original aid, st.cleanCol ++ [clean_article oracle a],
          st.clusters, st.nextClusterId⟩,
       ⟨1, 1, 0, 0, [a],
        [WEvent.insertClean (clean_article oracle a), WEvent.markCleaned aid]⟩) := by
  simp [cleanStep, h1, h2, h3, h4, h5, h6]

theorem setCleanedFirst_map_oid (l : List Article) (aid : String) :
    (setCleanedFirst l aid).map Article.oid = l.map Article.oid := by
  induction l with
  | nil => rfl
  | cons a rest ih =>
      by_cases h : a.oid = some aid <;> simp [setCleanedFirst, h, ih]

theorem mem_setCleanedFirst_oid (l : List Article) (aid : String) :
    ∀ x ∈ setCleanedFirst l aid, ∃ y ∈ l, y.oid = x.oid := by
  induction l with
  | nil => intro x hx; simp [setCleanedFirst] at hx
  | cons a rest ih =>
      intro x hx
      by_cases h : a.oid = some aid
      · simp only [setCleanedFirst, h, if_true] at hx
        rcases List.mem_cons.mp hx with rfl | hx2
        · exact ⟨a, List.mem_cons_self a rest, by simp [h]⟩
        · exact ⟨x, List.mem_cons_of_mem a hx2, rfl⟩
      · simp only [setCleanedFirst, h, if_false] at hx
        rcases List.mem_cons.mp hx with rfl | hx2
        · exact ⟨x, List.mem_cons_self x rest, rfl⟩
        · obtain ⟨y, hy, hyo⟩ := ih x hx2
          exact ⟨y, List.mem_cons_of_mem a hy, hyo⟩

theorem mem_setCleanedFirst_uncleaned (l : List Article) (aid : String)
    (hnd : (l.map Article.oid).Nodup) :
    ∀ x ∈ setCleanedFirst l aid, x.cleaned = false →
      x ∈ l ∧ x.oid ≠ some aid := by
  induction l with
  | nil => intro x hx; simp [setCleanedFirst] at hx
  | cons a rest ih =>
      intro x hx hxc
      simp only [List.map_cons, List.nodup_cons] at hnd
      by_cases h : a.oid = some aid
      · simp only [setCleanedFirst, h, if_true] at hx
        rcases List.mem_cons.mp hx with rfl | hx2
        · simp at hxc
        · refine ⟨List.mem_cons_of_mem a hx2, ?_⟩
          intro hxo
          exact hnd.1 (by rw [h, ← hxo]; exact List.mem_map_of_mem Article.oid hx2)
      · simp only [setCleanedFirst, h, if_false] at hx
        rcases List.mem_cons.mp hx with rfl | hx2
        · exact ⟨List.mem_cons_self x rest, h⟩
        · obtain ⟨hxl, hxo⟩ := ih hnd.2 x hx2 hxc
          exact ⟨List.mem_cons_of_mem a hxl, hxo⟩

theorem findOriginal_eq_none (l : List Article) (aid : String)
    (h : findOriginal l aid = none) : ∀ x ∈ l, x.oid ≠ some aid := by
  induction l with
  | nil => intro x hx; simp at hx
  | cons a rest ih =>
      intro x hx
      by_cases ha : a.oid = some aid
      · simp [findOriginal, ha] at h
      · simp only [findOriginal, ha, if_false] at h
        rcases List.mem_cons.mp hx with rfl | hx2
        · exact ha
        · exact ih h x hx2

theorem findOriginal_unique (l : List Article) (aid : String)
    (hnd : (l.map Article.oid).Nodup) (orig : Article)
    (hf : findOriginal l aid = some orig) :
    ∀ x ∈ l, x.oid = some aid → x = orig := by
  induction l with
  | nil => intro x hx; simp at hx
  | cons a rest ih =>
      intro x hx hxo
      simp only [List.map_cons, List.nodup_cons] at hnd
      by_cases ha : a.oid = some aid
      · simp only [findOriginal, ha, if_true, Option.some.injEq] at hf
        rcases List.mem_cons.mp hx with rfl | hx2
        · exact hf
        · exact absurd (by rw [ha, ← hxo]; exact List.mem_map_of_mem Article.oid hx2)
            hnd.1
      · simp only [findOriginal, ha, if_false] at hf
        rcases List.mem_cons.mp hx with rfl | hx2
        · exact absurd hxo ha
        · exact ih hnd.2 hf x hx2 hxo

theorem cleanStep_marks_inv (oracle : Article → Option Article)
    (insertOk : Article → Bool) (updateOk : String → Bool)
    (hins : ∀ c, insertOk c = true) (hupd : ∀ s, updateOk s = true)
    (st : Store) (a : Article) (rest : List Article)
    (hnd : (st.original.map Article.oid).Nodup)
    (hsome : ∀ x ∈ st.original, x.oid.isSome)
    (hinv : ∀ x ∈ st.original, x.cleaned = false →
      ∃ d ∈ a :: rest, d.oid = x.oid ∧ d.cleaned = false) :
    (((cleanStep oracle insertOk updateOk st a).1.original.map Article.oid).Nodup) ∧
    (∀ x ∈ (cleanStep oracle insertOk updateOk st a).1.original, x.oid.isSome) ∧
    (∀ x ∈ (cleanStep oracle insertOk updateOk st a).1.original, x.cleaned = false →
      ∃ d ∈ rest, d.oid = x.oid ∧ d.cleaned = false) := by
  by_cases hac : a.cleaned
  · rw [cleanStep_flagged oracle insertOk updateOk st a hac]
    refine ⟨hnd, hsome, ?_⟩
    intro x hx hxc
    obtain ⟨d, hd, hdo, hdc⟩ := hinv x hx hxc
    rcases List.mem_cons.mp hd with rfl | hd2
    · rw [hac] at hdc; cases hdc
    · exact ⟨d, hd2, hdo, hdc⟩
  · have hac' : a.cleaned = false := by simpa using hac
    cases hao : a.oid with
    | none =>
        rw [cleanStep_noid oracle insertOk updateOk st a hac' hao]
        refine ⟨hnd, hsome, ?_⟩
        intro x hx hxc
        obtain ⟨d, hd, hdo, hdc⟩ := hinv x hx hxc
        rcases List.mem_cons.mp hd with rfl | hd2
        · have hxs := hsome x hx
          rw [hao] at hdo
          rw [← hdo] at hxs
          simp at hxs
        · exact ⟨d, hd2, hdo, hdc⟩
    | some aid =>
        have h3 := hins (clean_article oracle a)
        have h4 := hupd aid
        cases hfind : findOriginal st.original aid with
        | none =>
            rw [cleanStep_ok_nofind oracle insertOk updateOk st a aid hac' hao h3 h4 hfind]
            refine ⟨hnd, hsome, ?_⟩
            intro x hx hxc
            obtain ⟨d, hd, hdo, hdc⟩ := hinv x hx hxc
            rcases List.mem_cons.mp hd with rfl | hd2
            · rw [hao] at hdo
              exact absurd hdo.symm (findOriginal_eq_none st.original aid hfind x hx)
            · exact ⟨d, hd2, hdo, hdc⟩
        | some orig =>
            by_cases hoc : orig.cleaned
            · rw [cleanStep_ok_nomod oracle insertOk updateOk st a aid orig hac' hao
                h3 h4 hfind hoc]
              refine ⟨hnd, hsome, ?_⟩
              intro x hx hxc
              obtain ⟨d, hd, hdo, hdc⟩ := hinv x hx hxc
              rcases List.mem_cons.mp hd with rfl | hd2
              · rw [hao] at hdo
                have hxeq := findOriginal_unique st.original aid hnd orig hfind x hx
                  hdo.symm
                rw [hxeq, hoc] at hxc
                cases hxc
              · exact ⟨d, hd2, hdo, hdc⟩
            · have hoc' : orig.cleaned = false := by simpa using hoc
              rw [cleanStep_ok_marked oracle insertOk updateOk st a aid orig hac' hao
                h3 h4 hfind hoc']
              refine ⟨?_, ?_, ?_⟩
              · show ((setCleanedFirst st.original aid).map Article.oid).Nodup
                rw [setCleanedFirst_map_oid]
                exact hnd
              · intro x hx
                obtain ⟨y, hy, hyo⟩ := mem_setCleanedFirst_oid st.original aid x hx
                have := hsome y hy
                rw [hyo] at this
                exact this
              · intro x hx hxc
                obtain ⟨hxl, hxne⟩ :=
                  mem_setCleanedFirst_uncleaned st.original aid hnd x hx hxc
                obtain ⟨d, hd, hdo, hdc⟩ := hinv x hxl hxc
                rcases List.mem_cons.mp hd with rfl | hd2
                · rw [hao] at hdo
                  exact absurd hdo.symm hxne
                · exact ⟨d, hd2, hdo, hdc⟩

theorem clean_data_marks_all (oracle : Article → Option Article)
    (insertOk : Article → Bool) (updateOk : String → Bool)
    (hins : ∀ c, insertOk c = true) (hupd : ∀ s, updateOk s = true) :
    ∀ (data : List Article) (st : Store),
      (st.original.map Article.oid).Nodup →
      (∀ x ∈ st.original, x.oid.isSome) →
      (∀ x ∈ st.original, x.cleaned = false →
        ∃ d ∈ data, d.oid = x.oid ∧ d.cleaned = false) →
      ∀ x ∈ (clean_data oracle insertOk updateOk data st).1.original,
        x.cleaned = true := by
  intro data
  induction data with
  | nil =>
      intro st _ _ hinv x hx
      cases hxc : x.cleaned with
      | false =>
          obtain ⟨d, hd, _⟩ := hinv x hx hxc
          simp at hd
      | true => rfl
  | cons a rest ih =>
      intro st hnd hsome hinv
      obtain ⟨h1, h2, h3⟩ :=
        cleanStep_marks_inv oracle insertOk updateOk hins hupd st a rest hnd hsome hinv
      intro x hx
      exact ih _ h1 h2 h3 x hx

theorem clean_data_all_flagged (oracle : Article → Option Article)
    (insertOk : Article → Bool) (updateOk : String → Bool) :
    ∀ (data : List Article) (st : Store), (∀ a ∈ data, a.cleaned = true) →
      clean_data oracle insertOk updateOk data st =
        (st, ⟨0, 0, 0, data.length, [], []⟩) := by
  intro data
  induction data with
  | nil => intro st _; rfl
  | cons a rest ih =>
      intro st h
      have ha := h a (List.mem_cons_self a rest)
      simp only [clean_data, cleanStep_flagged oracle insertOk updateOk st a ha,
        ih st (fun x hx => h x (List.mem_cons_of_mem a hx))]
      simp [cleanEffAdd]
      omega

theorem clusterStep_flagged (oracleK : Article → List String → Option String)
    (beh : String → StoreB) (st : Store) (names : List String) (a : Article)
    (cid : Nat) (h : a.clusterId = some cid) :
    clusterStep oracleK beh st names a = (st, names, ⟨1, 0, 0, 0, 1, [], []⟩) := by
  simp [clusterStep, h]

theorem clusterStep_found_noid (oracleK : Article → List String → Option String)
    (beh : String → StoreB) (st : Store) (names : List String) (a : Article)
    (c : Cluster) (h1 : a.clusterId = none)
    (h2 : determine_cluster oracleK a names ≠ "error")
    (h3 : findCluster st.clusters (determine_cluster oracleK a names) = some c)
    (h4 : a.oid = none) :
    clusterStep oracleK beh st names a = (st, names, ⟨1, 0, 0, 1, 0, [a], []⟩) := by
  simp [clusterStep, h1, h2, h3, h4]

theorem clusterStep_existing_ok (oracleK : Article → List String → Option String)
    (beh : String → StoreB) (st : Store) (names : List String) (a : Article)
    (c : Cluster) (aid : String) (h1 : a.clusterId = none)
    (h2 : determine_cluster oracleK a names ≠ "error")
    (h3 : findCluster st.clusters (determine_cluster oracleK a names) = some c)
    (h4 : a.oid = some aid) (h5 : beh aid = StoreB.ok) :
    clusterStep oracleK beh st names a =
      (⟨st.original, setClusterIdFirst st.cleanCol aid c.clid,
          pushMemberList st.clusters c.clid aid, st.nextClusterId⟩,
       names,
       ⟨1, 1, 0, 0, 0, [a],
        [WEvent.pushMember c.clid aid, WEvent.setClusterId aid c.clid]⟩) := by
  simp [clusterStep, h1, h2, h3, h4, h5]

theorem clusterStep_new_noid (oracleK : Article → List String → Option String)
    (beh : String → StoreB) (st : Store) (names : List String) (a : Article)
    (h1 : a.clusterId = none) (h2 : determine_cluster oracleK a names ≠ "error")
    (h3 : findCluster st.clusters (determine_cluster oracleK a names) = none)
    (h4 : a.oid = none) :
    clusterStep oracleK beh st names a = (st, names, ⟨1, 0, 0, 1, 0, [a], []⟩) := by
  simp [clusterStep, h1, h2, h3, h4]

theorem clusterStep_new_ok (oracleK : Article → List String → Option String)
    (beh : String → StoreB) (st : Store) (names : List String) (a : Article)
    (aid : String) (h1 : a.clusterId = none)
    (h2 : determine_cluster oracleK a names ≠ "error")
    (h3 : findCluster st.clusters (determine_cluster oracleK a names) = none)
    (h4 : a.oid = some aid) (h5 : beh aid = StoreB.ok) :
    clusterStep oracleK beh st names a =
      (⟨st.original, setClusterIdFirst st.cleanCol aid st.nextClusterId,
          st.clusters ++ [⟨st.nextClusterId, determine_cluster oracleK a names, [aid]⟩],
          st.nextClusterId + 1⟩,
       names ++ [determine_cluster oracleK a names],
       ⟨1, 0, 1, 0, 0, [a],
        [WEvent.insertCluster
          ⟨st.nextClusterId, determine_cluster oracleK a names, [aid]⟩,
         WEvent.setClusterId aid st.nextClusterId]⟩) := by
  simp [clusterStep, h1, h2, h3, h4, h5]

theorem setClusterIdFirst_map_oid (l : List Article) (aid : String) (clid : Nat) :
    (setClusterIdFirst l aid clid).map Article.oid = l.map Article.oid := by
  induction l with
  | nil => rfl
  | cons a rest ih =>
      by_cases h : a.oid = some aid <;> simp [setClusterIdFirst, h, ih]

theorem mem_setClusterIdFirst_oid (l : List Article) (aid : String) (clid : Nat) :
    ∀ x ∈ setClusterIdFirst l aid clid, ∃ y ∈ l, y.oid = x.oid := by
  induction l with
  | nil => intro x hx; simp [setClusterIdFirst] at hx
  | cons a rest ih =>
      intro x hx
      by_cases h : a.oid = some aid
      · simp only [setClusterIdFirst, h, if_true] at hx
        rcases List.mem_cons.mp hx with rfl | hx2
        · exact ⟨a, List.mem_cons_self a rest, by simp [h]⟩
        · exact ⟨x, List.mem_cons_of_mem a hx2, rfl⟩
      · simp only [setClusterIdFirst, h, if_false] at hx
        rcases List.mem_cons.mp hx with rfl | hx2
        · exact ⟨x, List.mem_cons_self x rest, rfl⟩
        · obtain ⟨y, hy, hyo⟩ := ih x hx2
          exact ⟨y, List.mem_cons_of_mem a hy, hyo⟩

theorem mem_setClusterIdFirst_unclustered (l : List Article) (aid : String)
    (clid : Nat) (hnd : (l.map Article.oid).Nodup) :
    ∀ x ∈ setClusterIdFirst l aid clid, x.clusterId = none →
      x ∈ l ∧ x.oid ≠ some aid := by
  induction l with
  | nil => intro x hx; simp [setClusterIdFirst] at hx
  | cons a rest ih =>
      intro x hx hxc
      simp only [List.map_cons, List.nodup_cons] at hnd
      by_cases h : a.oid = some aid
      · simp only [setClusterIdFirst, h, if_true] at hx
        rcases List.mem_cons.mp hx with rfl | hx2
        · simp at hxc
        · refine ⟨List.mem_cons_of_mem a hx2, ?_⟩
          intro hxo
          exact hnd.1 (by rw [h, ← hxo]; exact List.mem_map_of_mem Article.oid hx2)
      · simp only [setClusterIdFirst, h, if_false] at hx
        rcases List.mem_cons.mp hx with rfl | hx2
        · exact ⟨List.mem_cons_self x rest, h⟩
        · obtain ⟨hxl, hxo⟩ := ih hnd.2 x hx2 hxc
          exact ⟨List.mem_cons_of_mem a hxl, hxo⟩

theorem clusterStep_marks_inv (oracleK : Article → List String → Option String)
    (beh : String → StoreB) (hbeh : ∀ s, beh s = StoreB.ok)
    (st : Store) (names : List String) (a : Article) (rest : List Article)
    (hnd : (st.cleanCol.map Article.oid).Nodup)
    (hsome : ∀ x ∈ st.cleanCol, x.oid.isSome)
    (hok : ∀ ns, determine_cluster oracleK a ns ≠ "error")
    (hinv : ∀ x ∈ st.cleanCol, x.clusterId = none →
      ∃ d ∈ a :: rest, d.oid = x.oid ∧ d.clusterId = none) :
    (((clusterStep oracleK beh st names a).1.cleanCol.map Article.oid).Nodup) ∧
    (∀ x ∈ (clusterStep oracleK beh st names a).1.cleanCol, x.oid.isSome) ∧
    (∀ x ∈ (clusterStep oracleK beh st names a).1.cleanCol, x.clusterId = none →
      ∃ d ∈ rest, d.oid = x.oid ∧ d.clusterId = none) := by
  cases hcid : a.clusterId with
  | some cid =>
      rw [clusterStep_flagged oracleK beh st names a cid hcid]
      refine ⟨hnd, hsome, ?_⟩
      intro x hx hxc
      obtain ⟨d, hd, hdo, hdc⟩ := hinv x hx hxc
      rcases List.mem_cons.mp hd with rfl | hd2
      · rw [hcid] at hdc; cases hdc
      · exact ⟨d, hd2, hdo, hdc⟩
  | none =>
      have h2 := hok names
      have hstay : ∀ x ∈ st.cleanCol, x.clusterId = none → a.oid = none →
          ∃ d ∈ rest, d.oid = x.oid ∧ d.clusterId = none := by
        intro x hx hxc hao
        obtain ⟨d, hd, hdo, hdc⟩ := hinv x hx hxc
        rcases List.mem_cons.mp hd with rfl | hd2
        · exfalso
          have hxs := hsome x hx
          rw [hao] at hdo
          rw [← hdo] at hxs
          simp at hxs
        · exact ⟨d, hd2, hdo, hdc⟩
      have hset : ∀ (clid : Nat) (aid : String), a.oid = some aid →
          (((setClusterIdFirst st.cleanCol aid clid).map Article.oid).Nodup) ∧
          (∀ x ∈ setClusterIdFirst st.cleanCol aid clid, x.oid.isSome) ∧
          (∀ x ∈ setClusterIdFirst st.cleanCol aid clid, x.clusterId = none →
            ∃ d ∈ rest, d.oid = x.oid ∧ d.clusterId = none) := by
        intro clid aid hao
        refine ⟨?_, ?_, ?_⟩
        · rw [setClusterIdFirst_map_oid]
          exact hnd
        · intro x hx
          obtain ⟨y, hy, hyo⟩ := mem_setClusterIdFirst_oid st.cleanCol aid clid x hx
          have hys := hsome y hy
          rw [hyo] at hys
          exact hys
        · intro x hx hxc
          obtain ⟨hxl, hxne⟩ :=
            mem_setClusterIdFirst_unclustered st.cleanCol aid clid hnd x hx hxc
          obtain ⟨d, hd, hdo, hdc⟩ := hinv x hxl hxc
          rcases List.mem_cons.mp hd with rfl | hd2
          · rw [hao] at hdo
            exact absurd hdo.symm hxne
          · exact ⟨d, hd2, hdo, hdc⟩
      cases hfind : findCluster st.clusters (determine_cluster oracleK a names) with
      | some c =>
          cases hao : a.oid with
          | none =>
              rw [clusterStep_found_noid oracleK beh st names a c hcid h2 hfind hao]
              exact ⟨hnd, hsome, fun x hx hxc => hstay x hx hxc hao⟩
          | some aid =>
              rw [clusterStep_existing_ok oracleK beh st names a c aid hcid h2 hfind
                hao (hbeh aid)]
              exact hset c.clid aid hao
      | none =>
          cases hao : a.oid with
          | none =>
              rw [clusterStep_new_noid oracleK beh st names a hcid h2 hfind hao]
              exact ⟨hnd, hsome, fun x hx hxc => hstay x hx hxc hao⟩
          | some aid =>
              rw [clusterStep_new_ok oracleK beh st names a aid hcid h2 hfind hao
                (hbeh aid)]
              exact hset st.nextClusterId aid hao

theorem cluster_loop_marks_all (oracleK : Article → List String → Option String)
    (beh : String → StoreB) (hbeh : ∀ s, beh s = StoreB.ok)
    (hok : ∀ a ns, determine_cluster oracleK a ns ≠ "error") :
    ∀ (batch : List Article) (st : Store) (names : List String),
      (st.cleanCol.map Article.oid).Nodup →
      (∀ x ∈ st.cleanCol, x.oid.isSome) →
      (∀ x ∈ st.cleanCol, x.clusterId = none →
        ∃ d ∈ batch, d.oid = x.oid ∧ d.clusterId = none) →
      ∀ x ∈ (cluster_loop oracleK beh batch st names).1.cleanCol,
        x.clusterId.isSome := by
  intro batch
  induction batch with
  | nil =>
      intro st names _ _ hinv x hx
      cases hxc : x.clusterId with
      | none =>
          obtain ⟨d, hd, _⟩ := hinv x hx hxc
          simp at hd
      | some cid => rfl
  | cons a rest ih =>
      intro st names hnd hsome hinv
      obtain ⟨h1, h2, h3⟩ := clusterStep_marks_inv oracleK beh hbeh st names a rest
        hnd hsome (hok a) hinv
      intro x hx
      exact ih _ _ h1 h2 h3 x hx

theorem cluster_loop_all_flagged (oracleK : Article → List String → Option String)
    (beh : String → StoreB) :
    ∀ (batch : List Article) (st : Store) (names : List String),
      (∀ a ∈ batch, a.clusterId.isSome) →
      cluster_loop oracleK beh batch st names =
        (st, names, ⟨batch.length, 0, 0, 0, batch.length, [], []⟩) := by
  intro batch
  induction batch with
  | nil => intro st names _; rfl
  | cons a rest ih =>
      intro st names h
      have ha := h a (List.mem_cons_self a rest)
      obtain ⟨cid, hcid⟩ := Option.isSome_iff_exists.mp ha
      simp only [cluster_loop, clusterStep_flagged oracleK beh st names a cid hcid,
        ih st names (fun x hx => h x (List.mem_cons_of_mem a hx))]
      simp [clusterEffAdd]
      omega

/-! ### Claim C4 -/

/-- C4 counterexample: running the cleaning engine twice on a record set
containing a record without an identifier — with an oracle that never
fails — does not make the second run report every record as already-done:
the id-less record is counted failed again on the second run (skipped
stays 0 out of 1 submitted record), because no marker was ever persisted
for it. -/
theorem c4_counterexample :
    (clean_data (fun _ => some exCleanDoc) (fun _ => true) (fun _ => true)
        (clean_data (fun _ => some exCleanDoc) (fun _ => true) (fun _ => true)
            exStoreMissing.original exStoreMissing).1.original
        (clean_data (fun _ => some exCleanDoc) (fun _ => true) (fun _ => true)
            exStoreMissing.original exStoreMissing).1).2.skipped = 0 ∧
    (clean_data (fun _ => some exCleanDoc) (fun _ => true) (fun _ => true)
        (clean_data (fun _ => some exCleanDoc) (fun _ => true) (fun _ => true)
            exStoreMissing.original exStoreMissing).1.original
        (clean_data (fun _ => some exCleanDoc) (fun _ => true) (fun _ => true)
            exStoreMissing.original exStoreMissing).1).2.failed = 1 ∧
    (clean_data (fun _ => some exCleanDoc) (fun _ => true) (fun _ => true)
        exStoreMissing.original exStoreMissing).1.original.length = 1 := by
  decide

/-- C4 (amended): provided every record carries an identifier, the
identifiers are pairwise distinct, and the first run encounters no oracle
or store failure, a second run is idempotent for both strategies: the
cleaning rerun returns the store unchanged with every record counted
skipped and no oracle call or write, and likewise the clustering rerun —
because the first run persists `cleaned = true` for every original record
and a `cluster_id` for every clean record, and the filtering stage then
excludes every record. -/
theorem c4_idempotent_amended
    (oracle : Article → Option Article) (insertOk : Article → Bool)
    (updateOk : String → Bool) (oracleK : Article → List String → Option String)
    (beh : String → StoreB) (st : Store)
    (h1 : ∀ a ∈ st.original, a.oid.isSome)
    (h2 : (st.original.map Article.oid).Nodup)
    (h3 : ∀ c, insertOk c = true)
    (h4 : ∀ s, updateOk s = true)
    (k1 : ∀ a ∈ st.cleanCol, a.oid.isSome)
    (k2 : (st.cleanCol.map Article.oid).Nodup)
    (k3 : ∀ a ns, determine_cluster oracleK a ns ≠ "error")
    (k4 : ∀ s, beh s = StoreB.ok) :
    (clean_data oracle insertOk updateOk
        (clean_data oracle insertOk updateOk st.original st).1.original
        (clean_data oracle insertOk updateOk st.original st).1) =
      ((clean_data oracle insertOk updateOk st.original st).1,
       ⟨0, 0, 0,
        (clean_data oracle insertOk updateOk st.original st).1.original.length,
        [], []⟩) ∧
    (cluster_articles oracleK beh (cluster_articles oracleK beh st).1) =
      ((cluster_articles oracleK beh st).1,
       (cluster_articles oracleK beh st).1.clusters.map Cluster.name,
       ⟨(cluster_articles oracleK beh st).1.cleanCol.length, 0, 0, 0,
        (cluster_articles oracleK beh st).1.cleanCol.length, [], []⟩) := by
  constructor
  · apply clean_data_all_flagged
    intro x hx
    exact clean_data_marks_all oracle insertOk updateOk h3 h4 st.original st h2 h1
      (fun y hy hyc => ⟨y, hy, rfl, hyc⟩) x hx
  · simp only [cluster_articles]
    apply cluster_loop_all_flagged
    intro x hx
    exact cluster_loop_marks_all oracleK beh k4 k3 st.cleanCol st
      (st.clusters.map Cluster.name) k2 k1 (fun y hy hyc => ⟨y, hy, rfl, hyc⟩) x hx

/-- A fixed failure-free cleaning oracle for the idempotence witness. -/
def exOracleClean : Article → Option Article := fun _ => some exCleanDoc

/-- A fixed failure-free labelling oracle for the idempotence witness. -/
def exOracleK : Article → List String → Option String := fun _ _ => some "G"

/-- A store with one identified original record and one identified clean
record, used by the idempotence witness. -/
def exStoreW : Store :=
  ⟨[⟨some "a", false, none, "x"⟩], [⟨some "b", false, none, "y"⟩], [], 0⟩

/-- C4 amended, witnessed on a concrete failure-free scenario. -/
theorem c4_idempotent_amended_witness :
    (clean_data exOracleClean (fun _ => true) (fun _ => true)
        (clean_data exOracleClean (fun _ => true) (fun _ => true)
            exStoreW.original exStoreW).1.original
        (clean_data exOracleClean (fun _ => true) (fun _ => true)
            exStoreW.original exStoreW).1) =
      ((clean_data exOracleClean (fun _ => true) (fun _ => true)
            exStoreW.original exStoreW).1,
       ⟨0, 0, 0,
        (clean_data exOracleClean (fun _ => true) (fun _ => true)
            exStoreW.original exStoreW).1.original.length,
        [], []⟩) ∧
    (cluster_articles exOracleK (fun _ => StoreB.ok)
        (cluster_articles exOracleK (fun _ => StoreB.ok) exStoreW).1) =
      ((cluster_articles exOracleK (fun _ => StoreB.ok) exStoreW).1,
       (cluster_articles exOracleK (fun _ => StoreB.ok)
           exStoreW).1.clusters.map Cluster.name,
       ⟨(cluster_articles exOracleK (fun _ => StoreB.ok)
            exStoreW).1.cleanCol.length, 0, 0, 0,
        (cluster_articles exOracleK (fun _ => StoreB.ok)
            exStoreW).1.cleanCol.length, [], []⟩) :=
  c4_idempotent_amended exOracleClean (fun _ => true) (fun _ => true) exOracleK
    (fun _ => StoreB.ok) exStoreW (by decide) (by decide) (fun c => rfl)
    (fun s => rfl) (by decide) (by decide)
    (by intro a ns; simp [determine_cluster, exOracleK]) (fun s => rfl)

/-! ### Membership-invariant lemmas for claim C7 -/

theorem allMembers_cons (c : Cluster) (rest : List Cluster) :
    allMembers (c :: rest) = c.articles ++ allMembers rest := by
  simp [allMembers]

theorem allMembers_append (cs : List Cluster) (nc : Cluster) :
    allMembers (cs ++ [nc]) = allMembers cs ++ nc.articles := by
  simp [allMembers]

theorem mem_allMembers (cs : List Cluster) (d : Cluster) (x : String)
    (hd : d ∈ cs) (hx : x ∈ d.articles) : x ∈ allMembers cs := by
  simp only [allMembers, List.mem_flatten]
  exact ⟨d.articles, List.mem_map_of_mem Cluster.articles hd, hx⟩

theorem mem_pushMemberList (cs : List Cluster) (clid : Nat) (aid : String) :
    ∀ d' ∈ pushMemberList cs clid aid,
      d' ∈ cs ∨ ∃ d ∈ cs, d.clid = clid ∧
        d' = ⟨d.clid, d.name, d.articles ++ [aid]⟩ := by
  induction cs with
  | nil => intro d' h; simp [pushMemberList] at h
  | cons c rest ih =>
      intro d' h
      by_cases hc : c.clid = clid
      · simp only [pushMemberList] at h
        rw [if_pos hc] at h
        rcases List.mem_cons.mp h with rfl | h2
        · exact Or.inr ⟨c, List.mem_cons_self c rest, hc, rfl⟩
        · exact Or.inl (List.mem_cons_of_mem c h2)
      · simp only [pushMemberList] at h
        rw [if_neg hc] at h
        rcases List.mem_cons.mp h with rfl | h2
        · exact Or.inl (List.mem_cons_self d' rest)
        · rcases ih d' h2 with h3 | ⟨d, hd, hdc, hde⟩
          · exact Or.inl (List.mem_cons_of_mem c h3)
          · exact Or.inr ⟨d, List.mem_cons_of_mem c hd, hdc, hde⟩

theorem mem_allMembers_push (cs : List Cluster) (clid : Nat) (aid : String) :
    ∀ x ∈ allMembers (pushMemberList cs clid aid), x = aid ∨ x ∈ allMembers cs := by
  intro x hx
  simp only [allMembers, List.mem_flatten, List.mem_map] at hx
  obtain ⟨l, ⟨d', hd', hde⟩, hxl⟩ := hx
  rw [← hde] at hxl
  rcases mem_pushMemberList cs clid aid d' hd' with h | ⟨d, hd, _, rfl⟩
  · exact Or.inr (mem_allMembers cs d' x h hxl)
  · rcases List.mem_append.mp hxl with h2 | h2
    · exact Or.inr (mem_allMembers cs d x hd h2)
    · simp only [List.mem_singleton] at h2
      exact Or.inl h2

theorem membersNodup_push (cs : List Cluster) (clid : Nat) (aid : String)
    (hn : membersNodup cs) (hfree : aid ∉ allMembers cs) :
    membersNodup (pushMemberList cs clid aid) := by
  intro d' hd'
  rcases mem_pushMemberList cs clid aid d' hd' with h | ⟨d, hd, _, rfl⟩
  · exact hn d' h
  · show (d.articles ++ [aid]).Nodup
    rw [List.nodup_append]
    refine ⟨hn d hd, List.nodup_singleton aid, ?_⟩
    intro x hx hx2
    simp only [List.mem_singleton] at hx2
    rw [hx2] at hx
    exact hfree (mem_allMembers cs d aid hd hx)

theorem membersDisjoint_push (cs : List Cluster) (clid : Nat) (aid : String)
    (hd : membersDisjoint cs) (hfree : aid ∉ allMembers cs) :
    membersDisjoint (pushMemberList cs clid aid) := by
  induction cs with
  | nil => exact List.Pairwise.nil
  | cons c rest ih =>
      have hfree_rest : aid ∉ allMembers rest := by
        intro h
        exact hfree (by rw [allMembers_cons]; exact List.mem_append_right _ h)
      have hfree_head : aid ∉ c.articles := by
        intro h
        exact hfree (by rw [allMembers_cons]; exact List.mem_append_left _ h)
      rcases List.pairwise_cons.mp hd with ⟨hhead, htail⟩
      by_cases hc : c.clid = clid
      · simp only [pushMemberList]
        rw [if_pos hc]
        refine List.pairwise_cons.mpr ⟨?_, htail⟩
        intro d hdrest x hx
        rcases List.mem_append.mp hx with h2 | h2
        · exact hhead d hdrest x h2
        · simp only [List.mem_singleton] at h2
          rw [h2]
          intro hmem
          exact hfree_rest (mem_allMembers rest d aid hdrest hmem)
      · simp only [pushMemberList]
        rw [if_neg hc]
        refine List.pairwise_cons.mpr ⟨?_, ih htail hfree_rest⟩
        intro d' hd' x hx
        rcases mem_pushMemberList rest clid aid d' hd' with h | ⟨d, hdr, _, rfl⟩
        · exact hhead d' h x hx
        · intro hmem
          rcases List.mem_append.mp hmem with h2 | h2
          · exact hhead d hdr x hx h2
          · simp only [List.mem_singleton] at h2
            rw [h2] at hx
            exact hfree_head hx

theorem membersNodup_append_new (cs : List Cluster) (n : Nat) (lbl : String)
    (aid : String) (hn : membersNodup cs) :
    membersNodup (cs ++ [⟨n, lbl, [aid]⟩]) := by
  intro d hd
  rcases List.mem_append.mp hd with h | h
  · exact hn d h
  · simp only [List.mem_singleton] at h
    rw [h]
    exact List.nodup_singleton aid

theorem membersDisjoint_append_new (cs : List Cluster) (n : Nat) (lbl : String)
    (aid : String) (hd : membersDisjoint cs) (hfree : aid ∉ allMembers cs) :
    membersDisjoint (cs ++ [⟨n, lbl, [aid]⟩]) := by
  rw [membersDisjoint, List.pairwise_append]
  refine ⟨hd, List.pairwise_singleton _ _, ?_⟩
  intro c hc nc hnc x hx
  simp only [List.mem_singleton] at hnc
  rw [hnc]
  intro hmem
  simp only [List.mem_singleton] at hmem
  rw [hmem] at hx
  exact hfree (mem_allMembers cs c aid hc hx)

theorem clusterStep_clusters_cases (oracleK : Article → List String → Option String)
    (beh : String → StoreB) (st : Store) (names : List String) (a : Article) :
    (clusterStep oracleK beh st names a).1.clusters = st.clusters ∨
    (∃ aid c, a.clusterId = none ∧ a.oid = some aid ∧
      findCluster st.clusters (determine_cluster oracleK a names) = some c ∧
      (clusterStep oracleK beh st names a).1.clusters =
        pushMemberList st.clusters c.clid aid) ∨
    (∃ aid, a.clusterId = none ∧ a.oid = some aid ∧
      (clusterStep oracleK beh st names a).1.clusters =
        st.clusters ++
          [⟨st.nextClusterId, determine_cluster oracleK a names, [aid]⟩]) := by
  cases hcid : a.clusterId with
  | some cid =>
      refine Or.inl ?_
      rw [clusterStep_flagged oracleK beh st names a cid hcid]
  | none =>
      by_cases hlbl : determine_cluster oracleK a names = "error"
      · refine Or.inl ?_
        simp [clusterStep, hcid, hlbl]
      · cases hfind : findCluster st.clusters (determine_cluster oracleK a names) with
        | some c =>
            cases hao : a.oid with
            | none =>
                refine Or.inl ?_
                rw [clusterStep_found_noid oracleK beh st names a c hcid hlbl
                  hfind hao]
            | some aid =>
                cases hb : beh aid with
                | pushThrow =>
                    refine Or.inl ?_
                    simp [clusterStep, hcid, hlbl, hfind, hao, hb]
                | modZero =>
                    refine Or.inl ?_
                    simp [clusterStep, hcid, hlbl, hfind, hao, hb]
                | setThrow =>
                    refine Or.inr (Or.inl ⟨aid, c, rfl, rfl, rfl, ?_⟩)
                    simp [clusterStep, hcid, hlbl, hfind, hao, hb]
                | ok =>
                    refine Or.inr (Or.inl ⟨aid, c, rfl, rfl, rfl, ?_⟩)
                    simp [clusterStep, hcid, hlbl, hfind, hao, hb]
                | insThrow =>
                    refine Or.inr (Or.inl ⟨aid, c, rfl, rfl, rfl, ?_⟩)
                    simp [clusterStep, hcid, hlbl, hfind, hao, hb]
        | none =>
            cases hao : a.oid with
            | none =>
                refine Or.inl ?_
                rw [clusterStep_new_noid oracleK beh st names a hcid hlbl hfind hao]
            | some aid =>
                cases hb : beh aid with
                | insThrow =>
                    refine Or.inl ?_
                    simp [clusterStep, hcid, hlbl, hfind, hao, hb]
                | setThrow =>
                    refine Or.inr (Or.inr ⟨aid, rfl, rfl, ?_⟩)
                    simp [clusterStep, hcid, hlbl, hfind, hao, hb]
                | ok =>
                    refine Or.inr (Or.inr ⟨aid, rfl, rfl, ?_⟩)
                    simp [clusterStep, hcid, hlbl, hfind, hao, hb]
                | pushThrow =>
                    refine Or.inr (Or.inr ⟨aid, rfl, rfl, ?_⟩)
                    simp [clusterStep, hcid, hlbl, hfind, hao, hb]
                | modZero =>
                    refine Or.inr (Or.inr ⟨aid, rfl, rfl, ?_⟩)
                    simp [clusterStep, hcid, hlbl, hfind, hao, hb]

theorem unclusteredIds_tail (a : Article) (rest : List Article)
    (h : (((a :: rest).filter (fun x => x.clusterId.isNone)).filterMap
        Article.oid).Nodup) :
    (((rest).filter (fun x => x.clusterId.isNone)).filterMap Article.oid).Nodup := by
  by_cases hp : a.clusterId.isNone
  · rw [List.filter_cons, if_pos (by simpa using hp)] at h
    cases hao : a.oid with
    | none =>
        rw [List.filterMap_cons, hao] at h
        exact h
    | some aid =>
        rw [List.filterMap_cons, hao] at h
        exact h.of_cons
  · rw [List.filter_cons, if_neg (by simpa using hp)] at h
    exact h

theorem unclusteredIds_mem (rest : List Article) (x : Article) (s : String)
    (hx : x ∈ rest) (hxc : x.clusterId = none) (hxo : x.oid = some s) :
    s ∈ ((rest.filter (fun y => y.clusterId.isNone)).filterMap Article.oid) := by
  apply List.mem_filterMap.mpr
  exact ⟨x, List.mem_filter.mpr ⟨hx, by simp [hxc]⟩, hxo⟩

theorem unclusteredIds_head_fresh (a : Article) (rest : List Article) (aid : String)
    (hcid : a.clusterId = none) (hao : a.oid = some aid)
    (h : (((a :: rest).filter (fun x => x.clusterId.isNone)).filterMap
        Article.oid).Nodup) :
    ∀ x ∈ rest, x.clusterId = none → ∀ s, x.oid = some s → s ≠ aid := by
  intro x hx hxc s hxo heq
  rw [List.filter_cons, if_pos (by simp [hcid])] at h
  rw [List.filterMap_cons, hao] at h
  rcases List.nodup_cons.mp h with ⟨hnot, _⟩
  apply hnot
  rw [← heq]
  exact unclusteredIds_mem rest x s hx hxc hxo

theorem clusterStep_members_inv (oracleK : Article → List String → Option String)
    (beh : String → StoreB) (st : Store) (names : List String) (a : Article)
    (rest : List Article)
    (hn : membersNodup st.clusters) (hd : membersDisjoint st.clusters)
    (hfresh : ∀ x ∈ a :: rest, x.clusterId = none → ∀ s, x.oid = some s →
      s ∉ allMembers st.clusters)
    (hids : (((a :: rest).filter (fun x => x.clusterId.isNone)).filterMap
        Article.oid).Nodup) :
    membersNodup (clusterStep oracleK beh st names a).1.clusters ∧
    membersDisjoint (clusterStep oracleK beh st names a).1.clusters ∧
    (∀ x ∈ rest, x.clusterId = none → ∀ s, x.oid = some s →
      s ∉ allMembers (clusterStep oracleK beh st names a).1.clusters) ∧
    ((rest.filter (fun x => x.clusterId.isNone)).filterMap Article.oid).Nodup := by
  have hids' := unclusteredIds_tail a rest hids
  rcases clusterStep_clusters_cases oracleK beh st names a with
    hsame | ⟨aid, c, hcid, hao, hfind, hnew⟩ | ⟨aid, hcid, hao, hnew⟩
  · rw [hsame]
    exact ⟨hn, hd, fun x hx hxc s hxo =>
      hfresh x (List.mem_cons_of_mem a hx) hxc s hxo, hids'⟩
  · have hfree : aid ∉ allMembers st.clusters :=
      hfresh a (List.mem_cons_self a rest) hcid aid hao
    have hne := unclusteredIds_head_fresh a rest aid hcid hao hids
    rw [hnew]
    refine ⟨membersNodup_push st.clusters c.clid aid hn hfree,
      membersDisjoint_push st.clusters c.clid aid hd hfree, ?_, hids'⟩
    intro x hx hxc s hxo hmem
    rcases mem_allMembers_push st.clusters c.clid aid s hmem with h2 | h2
    · exact hne x hx hxc s hxo h2
    · exact hfresh x (List.mem_cons_of_mem a hx) hxc s hxo h2
  · have hfree : aid ∉ allMembers st.clusters :=
      hfresh a (List.mem_cons_self a rest) hcid aid hao
    have hne := unclusteredIds_head_fresh a rest aid hcid hao hids
    rw [hnew]
    refine ⟨membersNodup_append_new st.clusters st.nextClusterId
        (determine_cluster oracleK a names) aid hn,
      membersDisjoint_append_new st.clusters st.nextClusterId
        (determine_cluster oracleK a names) aid hd hfree, ?_, hids'⟩
    intro x hx hxc s hxo hmem
    rw [allMembers_append] at hmem
    rcases List.mem_append.mp hmem with h2 | h2
    · exact hfresh x (List.mem_cons_of_mem a hx) hxc s hxo h2
    · simp only [List.mem_singleton] at h2
      exact hne x hx hxc s hxo h2

theorem cluster_loop_members_inv (oracleK : Article → List String → Option String)
    (beh : String → StoreB) :
    ∀ (batch : List Article) (st : Store) (names : List String),
      membersNodup st.clusters → membersDisjoint st.clusters →
      (∀ x ∈ batch, x.clusterId = none → ∀ s, x.oid = some s →
        s ∉ allMembers st.clusters) →
      ((batch.filter (fun x => x.clusterId.isNone)).filterMap Article.oid).Nodup →
      membersNodup (cluster_loop oracleK beh batch st names).1.clusters ∧
      membersDisjoint (cluster_loop oracleK beh batch st names).1.clusters := by
  intro batch
  induction batch with
  | nil => intro st names hn hd _ _; exact ⟨hn, hd⟩
  | cons a rest ih =>
      intro st names hn hd hfresh hids
      obtain ⟨h1, h2, h3, h4⟩ :=
        clusterStep_members_inv oracleK beh st names a rest hn hd hfresh hids
      exact ih _ _ h1 h2 h3 h4

/-! ### Claim C7 -/

/-- C7 counterexample: the membership invariant is not preserved by the
operations of the classify-and-bucket strategy.  From a store satisfying
the invariant — cluster "X" lists "a" exactly once and in one group only,
while article "a" carries no `cluster_id` (a state the engine itself
reaches when the `$push` succeeds and the following `cluster_id` update
raises) — a run whose oracle labels "a" with "X" pushes "a" a second
time, leaving a duplicate in the member list. -/
theorem c7_counterexample :
    membersNodup exStoreX.clusters ∧ membersDisjoint exStoreX.clusters ∧
    ¬ membersNodup (cluster_articles (fun _ _ => some "X") (fun _ => StoreB.ok)
        exStoreX).1.clusters := by
  refine ⟨by decide, by decide, by decide⟩

/-- C7 (amended): the invariant — no duplicate identifiers inside a
member list, and each identifier in at most one group — is preserved by a
whole clustering run (for any oracle and any injected store-failure
behaviour) provided additionally that, at the start of the run, no record
still lacking a group reference already appears in any member list and
the identifiers of the unreferenced records are pairwise distinct.  The
counterexample shows the extra proviso is necessary. -/
theorem c7_membership_invariant_amended
    (oracleK : Article → List String → Option String) (beh : String → StoreB)
    (st : Store)
    (h1 : membersNodup st.clusters) (h2 : membersDisjoint st.clusters)
    (h3 : ∀ x ∈ st.cleanCol, x.clusterId = none → ∀ s, x.oid = some s →
      s ∉ allMembers st.clusters)
    (h4 : ((st.cleanCol.filter (fun x => x.clusterId.isNone)).filterMap
        Article.oid).Nodup) :
    membersNodup (cluster_articles oracleK beh st).1.clusters ∧
    membersDisjoint (cluster_articles oracleK beh st).1.clusters := by
  simp only [cluster_articles]
  exact cluster_loop_members_inv oracleK beh st.cleanCol st
    (st.clusters.map Cluster.name) h1 h2 h3 h4

/-- C7 amended, witnessed on a store with an empty cluster collection. -/
theorem c7_membership_invariant_amended_witness :
    membersNodup (cluster_articles (fun _ _ => some "X") (fun _ => StoreB.ok)
        exStoreCluster).1.clusters ∧
    membersDisjoint (cluster_articles (fun _ _ => some "X") (fun _ => StoreB.ok)
        exStoreCluster).1.clusters :=
  c7_membership_invariant_amended (fun _ _ => some "X") (fun _ => StoreB.ok)
    exStoreCluster (by decide) (by decide)
    (by intro x hx hxc s hxo hmem; simp [allMembers, exStoreCluster] at hmem)
    (by decide)

end SesgoCero